import Mathlib

/-!
Verification of the MemProcFS `vmm.c` memory-access engine against its
natural-language specification.  The definitions below are a shallow
embedding of the C source in `src/vmm/vmm.c`: pure Lean functions mirror
the C functions, mutable state (cache tables, process tables) is passed
explicitly, machine integers are `Nat`, and external collaborators
(the LeechCore transport, the per-architecture memory model) are
parameters.  Constants that live in the header `vmm.h` (absent from the
repository snapshot) are modelled from the specification where noted.
-/

/-- Modelled from the spec: number of regions of a cache table
(`VMM_CACHE2_REGIONS`, defined in the missing header `vmm.h`; the spec
says "typically 17, a prime"). -/
def VMM_CACHE2_REGIONS : Nat := 17

/-- Modelled from the spec: number of buckets per region
(`VMM_CACHE2_BUCKETS`, defined in the missing header `vmm.h`; the spec
says "prime-ish, e.g. 2039"). -/
def VMM_CACHE2_BUCKETS : Nat := 2039

/-- Modelled from the spec: the sentinel address denoting "no address"
(`MEM_SCATTER_ADDR_INVALID`, from the missing header; the spec calls it
`INVALID`; the 64-bit all-ones value). -/
def MEM_SCATTER_ADDR_INVALID : Nat := 0xffffffffffffffff

/-- Modelled from the spec: OR-able flag bits of the `flags` QWORD.  The
numeric values live in the missing header `vmm.h`; only their distinctness
matters.  `VMM_FLAG_NOCACHE`: skip the cache tier entirely. -/
def VMM_FLAG_NOCACHE : Nat := 0x1

/-- Modelled from the spec: `VMM_FLAG_ZEROPAD_ON_FAIL` flag bit. -/
def VMM_FLAG_ZEROPAD_ON_FAIL : Nat := 0x2

/-- Modelled from the spec: `VMM_FLAG_PROCESS_SHOW_TERMINATED` flag bit. -/
def VMM_FLAG_PROCESS_SHOW_TERMINATED : Nat := 0x4

/-- Modelled from the spec: `VMM_FLAG_FORCECACHE_READ` flag bit. -/
def VMM_FLAG_FORCECACHE_READ : Nat := 0x8

/-- Modelled from the spec: `VMM_FLAG_NOPAGING` flag bit. -/
def VMM_FLAG_NOPAGING : Nat := 0x10

/-- Modelled from the spec: `VMM_FLAG_NOCACHEPUT` flag bit. -/
def VMM_FLAG_NOCACHEPUT : Nat := 0x100

/-- Modelled from the spec: `VMM_FLAG_ALTADDR_VA_PTE` flag bit. -/
def VMM_FLAG_ALTADDR_VA_PTE : Nat := 0x400

/-- A scatter descriptor (`MEM_SCATTER`): tagged address, length, buffer
bytes and valid flag.  The per-descriptor auxiliary LIFO of the C struct
is modelled by explicit bookkeeping inside each pipeline function. -/
structure MEM where
  qwA : Nat
  cb : Nat
  pb : List Nat
  f : Bool
deriving DecidableEq, Repr

/-- A cache descriptor (`VMMOB_MEM`): object identity `eid` (the C heap
address, used where the code distinguishes objects by pointer), plus the
embedded `MEM_SCATTER` header fields it owns (`h.qwA`, `h.f`, `h.pb`).
The intrusive `FLink`/`BLink`/`AgeFLink`/`AgeBLink`/`SList` links are
represented by the position of the descriptor in the explicit Lean lists
of its region / stack. -/
structure MemEntry where
  eid : Nat
  qwA : Nat
  f : Bool
  pb : List Nat
deriving DecidableEq, Repr

/-- View a cache descriptor through its embedded `MEM_SCATTER` header
(`&pOb->h`): `cb` is always `0x1000`. -/
def MemEntry.toMEM (e : MemEntry) : MEM := ⟨e.qwA, 0x1000, e.pb, e.f⟩

/-- Rebuild a cache descriptor from its header after the header was
updated in place through the shared pointer (`pMEM = &pOb->h`). -/
def MemEntry.ofMEM (eid : Nat) (m : MEM) : MemEntry := ⟨eid, m.qwA, m.f, m.pb⟩

/-- The default scatter descriptor used by `getD` extractions. -/
def MEMdflt : MEM := ⟨0, 0, [], false⟩

/-- One shard of a cache table (`t->R[iR]`): bucket chains `B` (head =
most recently inserted), the age list (head = newest, `AgeFLink`
direction), and the entry counter `c`.  The region lock is not modelled
(single-threaded embedding). -/
structure CacheRegion where
  B : Nat → List MemEntry
  age : List MemEntry
  c : Nat

/-- A cache table (`VMM_CACHE_TABLE`): active flag, regions, the
`ListHeadEmpty` stack of recyclable descriptors (head = top), and the
`cEmpty`/`cTotal` counters.  The `ListHeadTotal` teardown stack and
`iReclaimLast` rotor are not needed by any claim and are elided. -/
structure CacheTable where
  fActive : Bool
  R : Nat → CacheRegion
  listEmpty : List MemEntry
  cEmpty : Nat
  cTotal : Nat

/-- `VMM_CACHE2_GET_REGION(qwA)`: `(qwA >> 12) % VMM_CACHE2_REGIONS`. -/
def VMM_CACHE2_GET_REGION (qwA : Nat) : Nat := (qwA >>> 12) % VMM_CACHE2_REGIONS

/-- `VMM_CACHE2_GET_BUCKET(qwA)`: `(qwA >> 12) % VMM_CACHE2_BUCKETS`. -/
def VMM_CACHE2_GET_BUCKET (qwA : Nat) : Nat := (qwA >>> 12) % VMM_CACHE2_BUCKETS

/-- `VmmCacheGet` (vmm.c:250-266): if the table is inactive return NULL;
otherwise scan the bucket chain of the address for the first exact
match and return it (the C code also increments the object's refcount
under the region lock; per-object refcounts of live cache entries are
not tracked globally in this embedding). -/
def VmmCacheGet (t : CacheTable) (qwA : Nat) : Option MemEntry :=
  if !t.fActive then none
  else ((t.R (VMM_CACHE2_GET_REGION qwA)).B (VMM_CACHE2_GET_BUCKET qwA)).find?
    (fun e => e.qwA == qwA)

/-- `VmmCacheInvalidate_2` (vmm.c:49-90): if the table is inactive do
nothing; otherwise walk the bucket chain of the address and, for every
entry whose address matches, unlink it from the bucket chain and from
the age list, decrement the region counter, and release the region's
reference (`Ob_DECREF`).  Unlinking from the doubly-linked chains is
list removal; the age list drops exactly the removed objects,
identified by `eid`. -/
def VmmCacheInvalidate_2 (t : CacheTable) (qwA : Nat) : CacheTable :=
  if !t.fActive then t
  else
    let iR := VMM_CACHE2_GET_REGION qwA
    let iB := VMM_CACHE2_GET_BUCKET qwA
    let reg := t.R iR
    let removed := (reg.B iB).filter (fun e => e.qwA == qwA)
    let reg' : CacheRegion :=
      { B := fun b => if b = iB then (reg.B iB).filter (fun e => !(e.qwA == qwA)) else reg.B b
        age := reg.age.filter (fun e => removed.all (fun d => !(d.eid == e.eid)))
        c := reg.c - removed.length }
    { t with R := fun r => if r = iR then reg' else t.R r }

/-- `VmmCacheInvalidate` (vmm.c:92-96): invalidate the address in both
the TLB and the PHYS cache tables. -/
def VmmCacheInvalidate (tlb phys : CacheTable) (pa : Nat) : CacheTable × CacheTable :=
  (VmmCacheInvalidate_2 tlb pa, VmmCacheInvalidate_2 phys pa)

/-- `VmmCacheReserve` (vmm.c:213-248): pop a descriptor from
`ListHeadEmpty`, resetting its address to `MEM_SCATTER_ADDR_INVALID`
and its valid flag to false; if the empty stack is drained, allocate a
fresh zero-initialized descriptor (refcount 2: one "total list"
reference, one for the caller).  Modelled from the spec for the parts
outside the snapshot: the NULL return on an inactive table or failed
allocation and the `VMM_CACHE2_MAX_ENTRIES` reclaim/retry loop are
elided (the spec guarantees `reserve` makes forward progress); the
caller always receives a descriptor with refcount 2. -/
def VmmCacheReserve (t : CacheTable) : MemEntry × CacheTable :=
  match t.listEmpty with
  | e :: rest =>
      ({ e with qwA := MEM_SCATTER_ADDR_INVALID, f := false },
       { t with listEmpty := rest, cEmpty := t.cEmpty - 1 })
  | [] =>
      ({ eid := 1000000 + t.cTotal, qwA := MEM_SCATTER_ADDR_INVALID, f := false,
         pb := List.replicate 0x1000 0 },
       { t with cTotal := t.cTotal + 1 })

/-- Result of `VmmCacheReserveReturn`: the updated table, the refcount
of the descriptor after the call (`rc`), whether the descriptor was
inserted into the live bucket/age chains, and whether it was pushed
back onto the empty stack by the refcount-reaches-one hook. -/
structure RRResult where
  t : CacheTable
  rc : Nat
  inserted : Bool
  toEmpty : Bool

/-- `VmmCacheReserveReturn` (vmm.c:178-211) applied to a descriptor
whose current refcount is `rc`.  If the table is inactive, the valid
flag is clear, or the address is `MEM_SCATTER_ADDR_INVALID`, the
function merely decrements the refcount (`Ob_DECREF`); if that
decrement reaches exactly 1, the per-cache refcount-reaches-one hook
`VmmCache_CallbackRefCount1` (vmm.c:158-170) runs: when the table is
active it re-increments the refcount and pushes the descriptor onto
`ListHeadEmpty`.  Otherwise the descriptor is inserted at the head of
the region's bucket chain and at the head (MRU end) of the age list and
the region counter is incremented; the refcount is NOT changed — the
caller's reference is overtaken by the cache region (comment at
vmm.c:194). -/
def VmmCacheReserveReturn (t : CacheTable) (e : MemEntry) (rc : Nat) : RRResult :=
  if !t.fActive || !e.f || e.qwA == MEM_SCATTER_ADDR_INVALID then
    let rcd := rc - 1
    if rcd = 1 && t.fActive then
      ⟨{ t with listEmpty := e :: t.listEmpty, cEmpty := t.cEmpty + 1 }, 2, false, true⟩
    else
      ⟨t, rcd, false, false⟩
  else
    let iR := VMM_CACHE2_GET_REGION e.qwA
    let iB := VMM_CACHE2_GET_BUCKET e.qwA
    let reg := t.R iR
    let reg' : CacheRegion :=
      { B := fun b => if b = iB then e :: reg.B iB else reg.B b
        age := e :: reg.age
        c := reg.c + 1 }
    ⟨{ t with R := fun r => if r = iR then reg' else t.R r }, rc, true, false⟩

/-- Modelled from the spec: size of the open-addressed process table
(`VMM_PROCESSTABLE_ENTRIES_MAX`, from the missing header `vmm.h`; the
spec only names the constant, so the exact value is immaterial to the
claims; `0x1000` is used here). -/
def VMM_PROCESSTABLE_ENTRIES_MAX : Nat := 0x1000

/-- Modelled from the spec: the high bit of the PID pseudo-space that
triggers the clone path (`VMM_PID_PROCESS_CLONE_WITH_KERNELMEMORY`,
from the missing header; "a high bit on a PID"; PIDs are DWORDs, so
bit 31). -/
def VMM_PID_PROCESS_CLONE_WITH_KERNELMEMORY : Nat := 0x80000000

/-- The plain data fields of a process object (`VMM_PROCESS`): PID,
parent PID, state (0 = live), the two candidate page-table roots, the
short name and the user-only flag.  The locks, map handles, plugin
containers, persistent record, EPROCESS bytes and token sub-record of
the C struct are owned resources with no bearing on the claims and are
elided. -/
structure ProcessData where
  dwPID : Nat
  dwPPID : Nat
  dwState : Nat
  paDTB : Nat
  paDTB_UserOpt : Nat
  szName : String
  fUserOnly : Bool
deriving DecidableEq, Repr

/-- A process object.  `base` is an ordinary process
(`pObProcessCloneParent == NULL`); `clone` is a shallow clone whose
`pObProcessCloneParent` references `parent`. -/
inductive Process where
  | base (d : ProcessData)
  | clone (d : ProcessData) (parent : Process)
deriving DecidableEq, Repr

/-- The data fields of a process (clone or not). -/
def Process.d : Process → ProcessData
  | .base d => d
  | .clone d _ => d

/-- Field accessor: `pProcess->pObProcessCloneParent` (NULL on ordinary
processes, the parent on clones). -/
def Process.cloneParent : Process → Option Process
  | .base _ => none
  | .clone _ p => some p

/-- Field accessor: `pProcess->dwPID`. -/
def Process.dwPID (p : Process) : Nat := p.d.dwPID

/-- Field accessor: `pProcess->dwState`. -/
def Process.dwState (p : Process) : Nat := p.d.dwState

/-- Field accessor: `pProcess->fUserOnly`. -/
def Process.fUserOnly (p : Process) : Bool := p.d.fUserOnly

/-- Field update: `pProcessClone->fUserOnly = ...`. -/
def Process.setUserOnly (p : Process) (b : Bool) : Process :=
  match p with
  | .base d => .base { d with fUserOnly := b }
  | .clone d q => .clone { d with fUserOnly := b } q

/-- A process table (`VMMOB_PROCESS_TABLE`): the open-addressed slot
array `M` (`_M`), the parallel insertion-order links `iFLinkM`
(`_iFLinkM`), the head of the insertion-order chain `iFLink`
(`_iFLink`), and the counters `c` / `cActive`.  The single-slot
container `pObCNewPROC` holding the next-generation table is factored
out into `VmmProcState.nextg` (only one nesting level is ever used:
a fresh table's own new-slot starts empty). -/
structure ProcessTable where
  M : Nat → Option Process
  iFLinkM : Nat → Nat
  iFLink : Nat
  c : Nat
  cActive : Nat

/-- A zero-initialized process table (`Ob_Alloc(..., LMEM_ZEROINIT,
sizeof(VMMOB_PROCESS_TABLE), ...)`). -/
def emptyProcessTable : ProcessTable :=
  { M := fun _ => none, iFLinkM := fun _ => 0, iFLink := 0, c := 0, cActive := 0 }

/-- The global process-table state: the live table (reachable from
`ctxVmm->pObCPROC`) and the next-generation table under construction
(the live table's `pObCNewPROC` slot). -/
structure VmmProcState where
  live : ProcessTable
  nextg : Option ProcessTable

/-- The open-addressing probe loop of `VmmProcessGetEx` (vmm.c:921-931):
starting at slot `i`, stop with NULL on an empty slot, return the
occupant whose PID matches, otherwise advance modulo the table size;
the `fuel` argument bounds the loop by the table size exactly as the
`i == iStart` wrap check does. -/
def ptFindGo (pt : ProcessTable) (dwPID : Nat) : Nat → Nat → Option Process
  | 0, _ => none
  | fuel + 1, i =>
    match pt.M i with
    | none => none
    | some p =>
      if p.dwPID = dwPID then some p
      else ptFindGo pt dwPID fuel ((i + 1) % VMM_PROCESSTABLE_ENTRIES_MAX)

/-- The probe of `VmmProcessGetEx` from its start slot
`dwPID % VMM_PROCESSTABLE_ENTRIES_MAX`. -/
def ptFind (pt : ProcessTable) (dwPID : Nat) : Option Process :=
  ptFindGo pt dwPID VMM_PROCESSTABLE_ENTRIES_MAX (dwPID % VMM_PROCESSTABLE_ENTRIES_MAX)

/-- `VmmProcessClone` (vmm.c:1114-1127): refuse (NULL) when the
argument is itself a clone (`pObProcessCloneParent` set); otherwise
produce a shallow copy of the process whose `pObProcessCloneParent`
references (and increfs) the original. -/
def VmmProcessClone (pProcess : Process) : Option Process :=
  if pProcess.cloneParent.isSome then none
  else some (.clone pProcess.d pProcess)

/-- `VmmProcessGetEx` (vmm.c:909-943) on an explicit table with
`flags = 0`: probe for the PID; on probe failure, if the PID carries
`VMM_PID_PROCESS_CLONE_WITH_KERNELMEMORY`, look up the base PID and
return a clone of the result with `fUserOnly` cleared.  The recursive
call in the C (`VmmProcessGetEx(pt, dwPID & ~CLONE, flags)`) is on a
PID with the clone bit cleared, for which `VmmProcessGetEx` reduces to
the plain probe, so it is inlined as `ptFind` here.  The lazy token
initialization (`VMM_FLAG_PROCESS_TOKEN`) mutates only the token
sub-record, which is elided. -/
def VmmProcessGetEx (pt : ProcessTable) (dwPID : Nat) : Option Process :=
  match ptFind pt dwPID with
  | some p => some p
  | none =>
    if dwPID &&& VMM_PID_PROCESS_CLONE_WITH_KERNELMEMORY ≠ 0 then
      match ptFind pt (dwPID &&& 0x7fffffff) with
      | some pBase =>
        match VmmProcessClone pBase with
        | some cl => some (cl.setUserOnly false)
        | none => none
      | none => none
    else none

/-- The open-addressing install loop of `VmmProcessCreateEntry`
(vmm.c:1213-1228): probe from the PID's start slot for the first empty
slot; install there, push the slot onto the insertion-order chain
(`_iFLinkM[i] = _iFLink; _iFLink = i`), and bump `c` and (for live
processes) `cActive`; fail (NULL) after a full wrap. -/
def ptInsertGo (pt : ProcessTable) (p : Process) : Nat → Nat → Option ProcessTable
  | 0, _ => none
  | fuel + 1, i =>
    match pt.M i with
    | none =>
      some { pt with
             M := fun j => if j = i then some p else pt.M j
             iFLinkM := fun j => if j = i then pt.iFLink else pt.iFLinkM j
             iFLink := i
             c := pt.c + 1
             cActive := pt.cActive + (if p.dwState = 0 then 1 else 0) }
    | some _ => ptInsertGo pt p fuel ((i + 1) % VMM_PROCESSTABLE_ENTRIES_MAX)

/-- The install loop from its start slot. -/
def ptInsert (pt : ProcessTable) (p : Process) : Option ProcessTable :=
  ptInsertGo pt p VMM_PROCESSTABLE_ENTRIES_MAX (p.dwPID % VMM_PROCESSTABLE_ENTRIES_MAX)

/-- `VmmProcessCreateEntry` (vmm.c:1147-1234).  Step 1, the DTB sanity
check (a TLB fetch plus `VmmTlbPageTableVerify`, both device- and
architecture-dependent), is abstracted into the boolean `dtbOk`: for a
live process (`dwState = 0`) the entry is refused when the check fails.
Step 2 obtains (or creates, zero-initialized) the next-generation
table.  Step 3 refuses a PID already present in the new table.  Step 4
carries the existing process object forward from the live table unless
`fTotalRefresh`, else allocates a fresh process (whose elided fields —
locks, plugin containers, EPROCESS copy, persistent record — are not
modelled).  Step 5 installs the object into the new table by open
addressing.  On success the created/carried process object is
returned together with the new global state. -/
def VmmProcessCreateEntry (st : VmmProcState) (fTotalRefresh : Bool)
    (dwPID dwPPID dwState paDTB paDTB_UserOpt : Nat) (szName : String)
    (fUserOnly : Bool) (dtbOk : Bool) : Option (Process × VmmProcState) :=
  if dwState = 0 && !dtbOk then none
  else
    let ptNew := st.nextg.getD emptyProcessTable
    if (VmmProcessGetEx ptNew dwPID).isSome then none
    else
      let carried := if !fTotalRefresh then VmmProcessGetEx st.live dwPID else none
      let pProcess := carried.getD
        (.base ⟨dwPID, dwPPID, dwState, paDTB, paDTB_UserOpt, szName, fUserOnly⟩)
      match ptInsert ptNew pProcess with
      | some ptNew' => some (pProcess, ⟨st.live, some ptNew'⟩)
      | none => none

/-- `VmmProcessCreateFinish` (vmm.c:1240-1254): atomically publish the
next-generation table as the live table (`ObContainer_SetOb` on the
global container); if no next-generation table exists, do nothing.  The
published table's own new-slot container is empty. -/
def VmmProcessCreateFinish (st : VmmProcState) : VmmProcState :=
  match st.nextg with
  | some ptNew => ⟨ptNew, none⟩
  | none => st

/-- The `_iFLink`/`_iFLinkM` walk of `VmmProcessListPIDs`
(vmm.c:1300-1310), emitting PIDs: visit the slot, emit its PID when the
process is live or `fShowTerminated`, follow `_iFLinkM`, and stop on an
empty slot or on wrapping to `_iFLink`.  The C loop has no other bound,
so the embedding adds `fuel`; a run that exhausts the fuel corresponds
to a non-terminating C loop. -/
def ptWalkPIDs (pt : ProcessTable) (fShowTerminated : Bool) : Nat → Nat → List Nat
  | 0, _ => []
  | fuel + 1, i =>
    match pt.M i with
    | none => []
    | some p =>
      let emitted := if p.dwState = 0 || fShowTerminated then [p.dwPID] else []
      let i' := pt.iFLinkM i
      match pt.M i' with
      | none => emitted
      | some _ =>
        if i' = pt.iFLink then emitted
        else emitted ++ ptWalkPIDs pt fShowTerminated fuel i'

/-- `VmmProcessListPIDs` (vmm.c:1282-1313) with `pPIDs = NULL`: report
the required count — `c` with `VMM_FLAG_PROCESS_SHOW_TERMINATED` (in
the call flags or the global flags), `cActive` without. -/
def VmmProcessListPIDs_count (pt : ProcessTable) (flags gFlags : Nat) : Nat :=
  if (flags ||| gFlags) &&& VMM_FLAG_PROCESS_SHOW_TERMINATED ≠ 0 then pt.c else pt.cActive

/-- `VmmProcessListPIDs` (vmm.c:1282-1313) with an output buffer of
capacity `cap`: report `0` PIDs when the capacity is below the required
count, otherwise copy the PIDs produced by the insertion-chain walk
(the C loop copies unboundedly; `fuel` caps the embedding). -/
def VmmProcessListPIDs_copy (pt : ProcessTable) (flags gFlags cap fuel : Nat) : List Nat :=
  let fShow := (flags ||| gFlags) &&& VMM_FLAG_PROCESS_SHOW_TERMINATED ≠ 0
  if cap < (if fShow then pt.c else pt.cActive) then []
  else ptWalkPIDs pt fShow fuel pt.iFLink

/-- Modelled from the spec: the backing transport's batched scatter
read (`LcReadScatter`, external to the repository) acting on one
descriptor — it "fills each descriptor's 4 KiB buffer and sets valid on
success"; descriptors already marked valid are left untouched, and a
failed read leaves the descriptor unchanged.  `dev` maps an address to
the bytes the device returns there (`none` = read failure). -/
def lcReadScatterOne (dev : Nat → Option (List Nat)) (m : MEM) : MEM :=
  if m.f then m
  else
    match dev m.qwA with
    | some bs => { m with f := true, pb := bs }
    | none => m

/-- Stage 4 of `VmmReadScatterPhysical` per descriptor (vmm.c:1606-1619):
on a failed read, if the call flags carry `VMM_FLAG_ZEROPAD_ON_FAIL`
and the address is strictly below `ctxMain->dev.paMax`, zero the
descriptor's `cb` bytes and mark it valid.  (Statistics counters are
not modelled.) -/
def physZeroFix (flags paMax : Nat) (m : MEM) : MEM :=
  if m.f then m
  else if flags &&& VMM_FLAG_ZEROPAD_ON_FAIL ≠ 0 ∧ m.qwA < paMax then
    { m with pb := List.replicate m.cb 0, f := true }
  else m

/-- Stage 1 of `VmmReadScatterPhysical` per descriptor
(vmm.c:1550-1574), returning the updated descriptor and the marker
pushed on its stack: `3` = already valid, `2` = filled from the PHYS
cache (requires `cb == 0x1000`), `1` = normal read still needed. -/
def physPhase1 (t : CacheTable) (m : MEM) : MEM × Nat :=
  if m.f then (m, 3)
  else
    match (if m.cb = 0x1000 then VmmCacheGet t m.qwA else none) with
    | some e => ({ m with f := true, pb := e.pb }, 2)
    | none => (m, 1)

/-- Stage 2 of `VmmReadScatterPhysical` (vmm.c:1591-1599): fabricate
`n` speculative descriptors, each backed by a freshly reserved PHYS
cache descriptor, each addressing the page-aligned address of the
previous batch entry plus `0x1000`
(`pMEM->qwA = (ppMEMsSpeculative[cSpeculative-1]->qwA & ~0xfff) + 0x1000`). -/
def specFabricate : Nat → MEM → CacheTable → List MemEntry × CacheTable
  | 0, _, t => ([], t)
  | n + 1, prev, t =>
    let rt := VmmCacheReserve t
    let e := { rt.1 with f := false, qwA := (prev.qwA / 0x1000) * 0x1000 + 0x1000 }
    let rest := specFabricate n e.toMEM rt.2
    (e :: rest.1, rest.2)

/-- Stage 5 of `VmmReadScatterPhysical` per batch entry
(vmm.c:1622-1638): unless `VMM_FLAG_NOCACHEPUT` is set, a speculative
entry (marker 4) is given back to the cache with `VmmCacheReserveReturn`
(inserted when its read succeeded, recycled otherwise), and a normal
read (marker 1) that succeeded is copied into a freshly reserved
descriptor which is then returned to the cache.  The triple is
(marker, descriptor state after stages 3-4, backing cache descriptor
for speculative entries). -/
def physCachePutOne (flags : Nat) (t : CacheTable) (x : Nat × MEM × Option MemEntry) :
    CacheTable :=
  if flags &&& VMM_FLAG_NOCACHEPUT ≠ 0 then t
  else
    match x with
    | (4, _, some e) => (VmmCacheReserveReturn t e 2).t
    | (1, m, _) =>
      if m.f then
        let rt := VmmCacheReserve t
        (VmmCacheReserveReturn rt.2 { rt.1 with f := true, qwA := m.qwA, pb := m.pb } 2).t
      else t
    | _ => t

/-- Stage 2 of `VmmReadScatterPhysical` (vmm.c:1583-1602): the
speculative batch.  The first `missIdx.length` entries are the collected
normal-read descriptors (`ppMEMsSpeculative[0..cSpeculative)`), the rest
are fabricated by `specFabricate` starting from the last collected miss
(`ppMEMsSpeculative[cSpeculative - 1]`) until the batch reaches `0x18`
entries.  Returns the batch, the fabricated cache descriptors and the
cache table after the reservations. -/
def physSpecBatch (t : CacheTable) (m1 : List MEM) (missIdx : List Nat) :
    List MEM × List MemEntry × CacheTable :=
  let k := missIdx.length
  let batchMiss := missIdx.map (fun i => m1.getD i MEMdflt)
  let prev := batchMiss.getD (k - 1) MEMdflt
  let fab := specFabricate (0x18 - k) prev t
  (batchMiss ++ fab.1.map MemEntry.toMEM, fab.1, fab.2)

/-- Write the post-device state of batch entries back to the original
descriptor list through the shared descriptor pointers (each batch
entry at position `p` that is original descriptor `i` updates slot
`i`). -/
def writebackOrig (ms : List MEM) (upd : List (Nat × MEM)) : List MEM :=
  upd.foldl (fun acc iv => acc.set iv.1 iv.2) ms

/-- Result of `VmmReadScatterPhysical`: the final state of the caller's
descriptors, the batch handed to `LcReadScatter` (`none` when the
device was never invoked), the batch after the device read and
zero-fixups, the count of real cache misses in the batch when
speculative fabrication occurred, and the PHYS cache table after the
call. -/
structure PhysResult where
  mems : List MEM
  batch : Option (List MEM)
  batchAfter : Option (List MEM)
  specReal : Option Nat
  t : CacheTable

/-- `VmmReadScatterPhysical` (vmm.c:1537-1640).  Stage 1 (cache read,
only when `VMM_FLAG_NOCACHE` is absent from `flags | ctxVmm->flags`):
classify every descriptor (already valid / cache hit / normal read),
collecting up to `0x18` misses as speculative anchors; if everything is
finished, or `VMM_FLAG_FORCECACHE_READ` is set in `flags`, unwind and
return without touching the device.  Stage 2: when between 1 and 23
misses exist, fabricate speculative descriptors up to a batch of
exactly `0x18`, addressing consecutive pages after the last miss; the
batch array is switched to the speculative array.  Stage 3: the
transport's scatter read over the batch.  Stage 4: zero-fixups of
failed reads (`physZeroFix`).  Stage 5 (when stage 1 ran): cache
insertion of successful normal reads and return of speculative
descriptors (`physCachePutOne`).  The final descriptor states reach the
caller through the shared pointers (`writebackOrig`). -/
def VmmReadScatterPhysical (t : CacheTable) (dev : Nat → Option (List Nat)) (paMax : Nat)
    (mems : List MEM) (flags gFlags : Nat) : PhysResult :=
  let g := fun m => physZeroFix flags paMax (lcReadScatterOne dev m)
  let fCache := (flags ||| gFlags) &&& VMM_FLAG_NOCACHE = 0
  if fCache then
    let tagged := mems.map (physPhase1 t)
    let m1 := tagged.map Prod.fst
    let c := (tagged.filter (fun x => x.2 ≠ 1)).length
    let missIdx :=
      ((((List.range mems.length).zip tagged).filter (fun x => x.2.2 = 1)).map Prod.fst).take 0x18
    if c = mems.length ∨ flags &&& VMM_FLAG_FORCECACHE_READ ≠ 0 then
      ⟨m1, none, none, none, t⟩
    else
      let k := missIdx.length
      if 0 < k ∧ k < 0x18 then
        let sb := physSpecBatch t m1 missIdx
        let batchAfter := sb.1.map g
        let memsF := writebackOrig m1 (missIdx.zip batchAfter)
        let fabAfter := (sb.2.1.zip (batchAfter.drop k)).map
          (fun em => MemEntry.ofMEM em.1.eid em.2)
        let putList := ((batchAfter.take k).map (fun m => (1, m, (none : Option MemEntry))))
          ++ fabAfter.map (fun e => (4, e.toMEM, some e))
        let t5 := putList.foldl (physCachePutOne flags) sb.2.2
        ⟨memsF, some sb.1, some batchAfter, some k, t5⟩
      else
        let batchAfter := m1.map g
        let putList := (batchAfter.zip (tagged.map Prod.snd)).map
          (fun x => (x.2, x.1, (none : Option MemEntry)))
        let t5 := putList.foldl (physCachePutOne flags) t
        ⟨batchAfter, some m1, some batchAfter, none, t5⟩
  else
    let batchAfter := mems.map g
    ⟨batchAfter, some mems, some batchAfter, none, t⟩

/-- Modelled from the spec: the outcome of the paged-memory decoder
(`pfnPagedRead`, external to the repository).  `filled` = "the page is
resident elsewhere, fill `dstPage` directly and return true" (the
descriptor becomes valid); `declined pa` = the decoder returned false
after writing `pa` into `&physicalReplacement` (`pa = 0` means no
replacement address). -/
inductive PagedReadResult where
  | filled (pb : List Nat)
  | declined (qwPagedPA : Nat)

/-- Modelled from the spec: the pluggable per-architecture memory model
(`ctxVmm->fnMemoryModel`), restricted to the entry points the scatter
pipeline uses: `VmmVirt2Phys` and `pfnPagedRead` (with
`hasPagedRead` = `pfnPagedRead != NULL`).  A `MemModel` value stands
for one concrete process (`pProcess`) paired with the architecture
functions. -/
structure MemModel where
  virt2phys : Nat → Option Nat
  pagedRead : Nat → Nat → PagedReadResult
  hasPagedRead : Bool

/-- Stage 2 of `VmmReadScatterVirtual` per descriptor (vmm.c:1668-1705):
returns the updated virtual descriptor and the physical task descriptor
(pointing at the same buffer) when a physical read is still required.
Already-completed descriptors and the sentinel addresses `0` and `-1`
are skipped, zero-filling the buffer when `VMM_FLAG_ZEROPAD_ON_FAIL` is
set (in `flags` or the global flags) and the descriptor is not valid.
Otherwise translation runs (`VmmVirt2Phys`, skipped under
`VMM_FLAG_ALTADDR_VA_PTE`), then the paged-memory decoder (when paging
is enabled, the descriptor is a full page and the decoder exists),
which may fill the page directly or supply a replacement physical
address; with no translation the buffer is zero-filled under
`VMM_FLAG_ZEROPAD_ON_FAIL`. -/
def virtOne (mm : MemModel) (flags gFlags : Nat) (m : MEM) : MEM × Option MEM :=
  let fPaging := (flags ||| gFlags) &&& VMM_FLAG_NOPAGING = 0
  let fAltAddrPte := flags &&& VMM_FLAG_ALTADDR_VA_PTE ≠ 0
  let fZeropadOnFail := (flags ||| gFlags) &&& VMM_FLAG_ZEROPAD_ON_FAIL ≠ 0
  if m.f ∨ m.qwA = 0 ∨ m.qwA = MEM_SCATTER_ADDR_INVALID then
    (if !m.f ∧ fZeropadOnFail then { m with pb := List.replicate m.cb 0 } else m, none)
  else
    match (if fAltAddrPte then none else mm.virt2phys m.qwA) with
    | some pa => (m, some ⟨pa, 0x1000, m.pb, false⟩)
    | none =>
      if fPaging ∧ m.cb = 0x1000 ∧ mm.hasPagedRead then
        match mm.pagedRead (if fAltAddrPte then 0 else m.qwA)
            (if fAltAddrPte then m.qwA else 0) with
        | .filled bs => ({ m with f := true, pb := bs }, none)
        | .declined pa2 =>
          if pa2 ≠ 0 then (m, some ⟨pa2, 0x1000, m.pb, false⟩)
          else (if fZeropadOnFail then { m with pb := List.replicate m.cb 0 } else m, none)
      else
        (if fZeropadOnFail then { m with pb := List.replicate m.cb 0 } else m, none)

/-- Collect the physical tasks of stage 2 together with the index of
the originating virtual descriptor (the back-pointer pushed on the
descriptor stack at vmm.c:1704). -/
def taskCollect : Nat → List (MEM × Option MEM) → List (Nat × MEM)
  | _, [] => []
  | i, (_, none) :: rest => taskCollect (i + 1) rest
  | i, (_, some tm) :: rest => (i, tm) :: taskCollect (i + 1) rest

/-- Stage 3 writeback of `VmmReadScatterVirtual` (vmm.c:1709-1712):
each physical task's final valid flag is copied to its originating
virtual descriptor, whose buffer bytes are shared with the task
(`pIoPA->pb = pIoVA->pb`), so the buffer contents follow as well. -/
def writebackVirt (ms : List MEM) (upd : List (Nat × MEM)) : List MEM :=
  upd.foldl
    (fun acc iv =>
      acc.set iv.1 { acc.getD iv.1 ⟨0, 0, [], false⟩ with f := iv.2.f, pb := iv.2.pb })
    ms

/-- Result of `VmmReadScatterVirtual`: final descriptor states, the
physical task list (originating index, task descriptor), the inner
physical result when a physical read happened, and the PHYS cache
afterwards. -/
structure VirtResult where
  mems : List MEM
  tasks : List (Nat × MEM)
  phys : Option PhysResult
  t : CacheTable

/-- `VmmReadScatterVirtual` (vmm.c:1642-1715): translate every
descriptor (`virtOne`), collect the dense physical task array, run
`VmmReadScatterPhysical` over it when it is non-empty, and copy the
results back to the originating descriptors. -/
def VmmReadScatterVirtual (mm : MemModel) (t : CacheTable) (dev : Nat → Option (List Nat))
    (paMax : Nat) (mems : List MEM) (flags gFlags : Nat) : VirtResult :=
  let pairs := mems.map (virtOne mm flags gFlags)
  let m2 := pairs.map Prod.fst
  let tasks := taskCollect 0 pairs
  if tasks.isEmpty then ⟨m2, tasks, none, t⟩
  else
    let pr := VmmReadScatterPhysical t dev paMax (tasks.map Prod.snd) flags gFlags
    let memsF := writebackVirt m2 ((tasks.map Prod.fst).zip pr.mems)
    ⟨memsF, tasks, some pr, pr.t⟩

/-- Result of a scatter write: the descriptor array after the write
(`none` = a NULL pointer slot), the two cache tables after
write-invalidation, and whether a NULL descriptor pointer was
dereferenced (undefined behavior in the C). -/
structure WriteScatterResult where
  mems : List (Option MEM)
  tlb : CacheTable
  phys : CacheTable
  crash : Bool

/-- `VmmWriteScatterPhysical` (vmm.c:1496-1508): hand the descriptor
array to the transport's scatter write (modelled from the spec:
`writeScatter` "writes each descriptor; sets valid on success", with
`devW` deciding per-address success), then for every descriptor whose
write succeeded at a valid address invalidate the page in the TLB and
PHYS caches.  The statistics loop dereferences every descriptor
pointer, so a NULL slot is a crash. -/
def VmmWriteScatterPhysical (devW : Nat → Bool) (tlb phys : CacheTable)
    (ms : List (Option MEM)) : WriteScatterResult :=
  let written := ms.map (fun om => om.map (fun m => { m with f := devW m.qwA }))
  let tp := written.foldl
    (fun (acc : CacheTable × CacheTable) om =>
      match om with
      | some m =>
        if m.f ∧ m.qwA ≠ MEM_SCATTER_ADDR_INVALID then
          VmmCacheInvalidate acc.1 acc.2 ((m.qwA / 0x1000) * 0x1000)
        else acc
      | none => acc)
    (tlb, phys)
  ⟨written, tp.1, tp.2, written.any Option.isNone⟩

/-- The address-translation step of `VmmWriteScatterVirtual`
(vmm.c:1515-1530) for one descriptor: already-valid or sentinel
descriptors get the sentinel address; otherwise `VmmVirt2Phys`, then
the paged decoder consulted purely for translation (its boolean result
is ignored, only `&qwPagedPA` is read), falling back to the sentinel. -/
def writeVirtTranslate (mm : MemModel) (m : MEM) : MEM :=
  if m.f ∨ m.qwA = MEM_SCATTER_ADDR_INVALID then { m with qwA := MEM_SCATTER_ADDR_INVALID }
  else
    match mm.virt2phys m.qwA with
    | some pa => { m with qwA := pa }
    | none =>
      match mm.pagedRead m.qwA 0 with
      | .filled _ => { m with qwA := MEM_SCATTER_ADDR_INVALID }
      | .declined pa2 =>
        if pa2 ≠ 0 then { m with qwA := pa2 }
        else { m with qwA := MEM_SCATTER_ADDR_INVALID }

/-- `VmmWriteScatterVirtual` (vmm.c:1510-1535): push every original
address on the descriptor stack (dereferencing each pointer — a NULL
slot is a crash), translate the addresses, run the physical scatter
write, and restore the original addresses. -/
def VmmWriteScatterVirtual (mm : MemModel) (devW : Nat → Bool) (tlb phys : CacheTable)
    (ms : List (Option MEM)) : WriteScatterResult :=
  let translated := ms.map (fun om => om.map (writeVirtTranslate mm))
  let wr := VmmWriteScatterPhysical devW tlb phys translated
  let restored := (wr.mems.zip ms).map
    (fun p =>
      match p with
      | (some w, some o) => some { w with qwA := o.qwA }
      | _ => none)
  ⟨restored, wr.tlb, wr.phys, ms.any Option.isNone ∨ wr.crash⟩

/-- The page-splitting loop of `VmmWriteEx` (vmm.c:1819-1828): starting
at offset `oA`, emit a descriptor for `min(0x1000 - ((qwA+oA) & 0xfff),
cb - oA)` bytes and advance; `fuel` bounds the loop (each step advances
by at least one byte, so `cb` steps suffice). -/
def buildWriteMems (qwA : Nat) (pb : List Nat) (cb : Nat) : Nat → Nat → List MEM
  | 0, _ => []
  | fuel + 1, oA =>
    if oA < cb then
      let cbP := min (0x1000 - ((qwA + oA) % 0x1000)) (cb - oA)
      (⟨qwA + oA, cbP, (pb.drop oA).take cbP, false⟩ : MEM)
        :: buildWriteMems qwA pb cb fuel (oA + cbP)
    else []

/-- Result of `VmmWriteEx`: the count argument passed to the scatter
write (`none` = scatter never invoked), the descriptor array passed
(`none` entries are NULL pointers from the zero-initialized pointer
array), the crash flag, the reported byte count, and the caches. -/
structure WriteExResult where
  devCount : Option Nat
  descs : List (Option MEM)
  crash : Bool
  cbWrite : Nat
  tlb : CacheTable
  phys : CacheTable

/-- `VmmWriteEx` (vmm.c:1807-1844): compute
`cMEMs = ((qwA & 0xfff) + cb + 0xfff) >> 12`, allocate the
zero-initialized descriptor and pointer arrays, populate them with the
page-splitting loop (which builds descriptors only while `oA < cb`, so
pointer slots beyond the loop stay NULL), run the virtual or physical
scatter write over `cMEMs` entries, and report the summed `cb` of the
successful descriptors (the summing loop walks the descriptor structs
themselves, whose unbuilt entries are zeroed, contributing nothing). -/
def VmmWriteEx (mmOpt : Option MemModel) (devW : Nat → Bool) (tlb phys : CacheTable)
    (qwA : Nat) (pb : List Nat) (cb : Nat) : WriteExResult :=
  let cMEMs := ((qwA % 0x1000) + cb + 0xfff) / 0x1000
  let prepared := buildWriteMems qwA pb cb cb 0
  let descs : List (Option MEM) := prepared.map some
    ++ List.replicate (cMEMs - prepared.length) none
  let wr := match mmOpt with
    | some mm => VmmWriteScatterVirtual mm devW tlb phys descs
    | none => VmmWriteScatterPhysical devW tlb phys descs
  let cbWrite := wr.mems.foldl
    (fun acc om =>
      match om with
      | some m => if m.f then acc + m.cb else acc
      | none => acc)
    0
  ⟨some cMEMs, descs, wr.crash, cbWrite, wr.tlb, wr.phys⟩

/-- `VmmWrite` (vmm.c:1846-1851): `VmmWriteEx` and compare the byte
count with the request. -/
def VmmWrite (mmOpt : Option MemModel) (devW : Nat → Bool) (tlb phys : CacheTable)
    (qwA : Nat) (pb : List Nat) (cb : Nat) : Bool :=
  (VmmWriteEx mmOpt devW tlb phys qwA pb cb).cbWrite == cb

/-- Result of `VmmReadEx`: the caller's buffer after the call, the
reported byte count, whether the scatter layer was invoked, and the
PHYS cache afterwards. -/
structure ReadExResult where
  buf : List Nat
  cbRead : Nat
  scatterCalled : Bool
  t : CacheTable

/-- `VmmReadEx` (vmm.c:1853-1918): `cb == 0` returns immediately with
nothing read.  Otherwise the byte range is split into page descriptors
(first and last page backed by the zeroed scratch buffer, middle pages
aliasing the caller's buffer), the virtual or physical scatter read
runs, failed pages are zeroed, and the byte count is assembled from the
valid flags with the first/last sub-page slices adjusted exactly as in
the C (vmm.c:1889-1915).  The buffer is reassembled per byte from the
page that covers it: device/cache bytes when the page read succeeded,
zero otherwise. -/
def VmmReadEx (mmOpt : Option MemModel) (t : CacheTable) (dev : Nat → Option (List Nat))
    (paMax : Nat) (qwA : Nat) (pb : List Nat) (cb : Nat) (flags gFlags : Nat) :
    ReadExResult :=
  if cb = 0 then ⟨pb, 0, false, t⟩
  else
    let cMEMs := ((qwA % 0x1000) + cb + 0xfff) / 0x1000
    let oA := qwA % 0x1000
    let mems := (List.range cMEMs).map (fun i =>
      ({ qwA := qwA - oA + i * 0x1000, cb := 0x1000,
         pb := if i = 0 ∨ (i = cMEMs - 1 ∧ 1 < cMEMs) then List.replicate 0x1000 0
               else (pb.drop (i * 0x1000 - oA)).take 0x1000,
         f := false } : MEM))
    let r : List MEM × CacheTable := match mmOpt with
      | some mm =>
        let v := VmmReadScatterVirtual mm t dev paMax mems flags gFlags
        (v.mems, v.t)
      | none =>
        let p := VmmReadScatterPhysical t dev paMax mems flags gFlags
        (p.mems, p.t)
    let rm := r.1
    let buf := (List.range cb).map (fun j =>
      let m := rm.getD ((oA + j) / 0x1000) ⟨0, 0, [], false⟩
      if m.f then m.pb.getD ((oA + j) % 0x1000) 0 else 0)
    let firstF := (rm.getD 0 ⟨0, 0, [], false⟩).f
    let lastF := (rm.getD (cMEMs - 1) ⟨0, 0, [], false⟩).f
    let cbRead0 := (rm.filter (fun m => m.f)).length * 0x1000
    let cbRead1 := cbRead0 - (if firstF then 0x1000 else 0)
      - (if 1 < cMEMs ∧ lastF then 0x1000 else 0)
    let cbRead2 := cbRead1 + (if firstF then min cb (0x1000 - oA) else 0)
    let cbPlast := if (qwA + cb) % 0x1000 ≠ 0 then (qwA + cb) % 0x1000 else 0x1000
    let cbRead3 := cbRead2 + (if 1 < cMEMs ∧ lastF then cbPlast else 0)
    ⟨buf, cbRead3, true, r.2⟩

/-- `VmmRead` (vmm.c:2005-2010): `VmmReadEx` with `flags = 0` and
compare the byte count with the request. -/
def VmmRead (mmOpt : Option MemModel) (t : CacheTable) (dev : Nat → Option (List Nat))
    (paMax : Nat) (qwA : Nat) (pb : List Nat) (cb : Nat) (gFlags : Nat) : Bool :=
  (VmmReadEx mmOpt t dev paMax qwA pb cb 0 gFlags).cbRead == cb

/-- `STATUS_SUCCESS` (vmm.c:1920). -/
def STATUS_SUCCESS : Nat := 0x00000000

/-- `STATUS_END_OF_FILE` (vmm.c:1921). -/
def STATUS_END_OF_FILE : Nat := 0xC0000011

/-- Result of the file-style adapters: the NTSTATUS, the transferred
byte count (`*pcbRead` / `*pcbWrite`), and the (address, length) of the
underlying `VmmReadEx`/`VmmWriteEx` call when one is made. -/
structure AsFileResult where
  status : Nat
  cbDone : Nat
  access : Option (Nat × Nat)
deriving DecidableEq, Repr

/-- `VmmReadAsFile` (vmm.c:1923-1937): end-of-file with zero bytes when
the offset is at or past the object size; otherwise clamp the request
to the object's end, report end-of-file when the clamped length is
zero, else read `min(cb, cbMax)` bytes at `qwMemoryAddress + cbOffset`
(with `VMM_FLAG_ZEROPAD_ON_FAIL`) and return success. -/
def VmmReadAsFile (qwMemoryAddress cbMemorySize cb cbOffset : Nat) : AsFileResult :=
  if cbMemorySize ≤ cbOffset then ⟨STATUS_END_OF_FILE, 0, none⟩
  else
    let cbMax := min (qwMemoryAddress + cbMemorySize) (qwMemoryAddress + cb + cbOffset)
      - (qwMemoryAddress + cbOffset)
    let r := min cb cbMax
    if r = 0 then ⟨STATUS_END_OF_FILE, 0, none⟩
    else ⟨STATUS_SUCCESS, r, some (qwMemoryAddress + cbOffset, r)⟩

/-- `VmmWriteAsFile` (vmm.c:1939-1953): the same clamping as
`VmmReadAsFile`, invoking `VmmWriteEx` on the clamped range. -/
def VmmWriteAsFile (qwMemoryAddress cbMemorySize cb cbOffset : Nat) : AsFileResult :=
  if cbMemorySize ≤ cbOffset then ⟨STATUS_END_OF_FILE, 0, none⟩
  else
    let cbMax := min (qwMemoryAddress + cbMemorySize) (qwMemoryAddress + cb + cbOffset)
      - (qwMemoryAddress + cbOffset)
    let r := min cb cbMax
    if r = 0 then ⟨STATUS_END_OF_FILE, 0, none⟩
    else ⟨STATUS_SUCCESS, r, some (qwMemoryAddress + cbOffset, r)⟩

/-! Shared concrete inputs for witnesses and counterexamples. -/

/-- An empty cache region. -/
def emptyCacheRegion : CacheRegion := ⟨fun _ => [], [], 0⟩

/-- An empty, active cache table. -/
def emptyActiveCache : CacheTable := ⟨true, fun _ => emptyCacheRegion, [], 0, 0⟩

/-- An active cache table whose empty stack is stocked with `n`
recyclable descriptors (with tiny buffers, standing for 4 KiB pages). -/
def stockedCache (n : Nat) : CacheTable :=
  { emptyActiveCache with listEmpty := List.replicate n ⟨0, 0, false, []⟩, cEmpty := n }

/-- An active cache table holding exactly the entries `es` (same
address assumed for region/bucket placement of the head entry). -/
def cacheWith (e : MemEntry) : CacheTable :=
  { fActive := true
    R := fun r =>
      if r = VMM_CACHE2_GET_REGION e.qwA then
        ⟨fun b => if b = VMM_CACHE2_GET_BUCKET e.qwA then [e] else [], [e], 1⟩
      else emptyCacheRegion
    listEmpty := []
    cEmpty := 0
    cTotal := 1 }

/-- Concrete live table for the C1 witness: PID 100 lives in slot 100. -/
def C1live : ProcessTable :=
  { M := fun i => if i = 100 then some (.base ⟨100, 0, 0, 0x1000, 0, "pOld", true⟩) else none
    iFLinkM := fun _ => 0, iFLink := 100, c := 1, cActive := 1 }

/-- Concrete global state for the C1 witness. -/
def C1st : VmmProcState := ⟨C1live, none⟩

/-- Fallback value for extracting the C1 witness results. -/
def C1def : Process × VmmProcState := (.base ⟨0, 0, 0, 0, 0, "", false⟩, ⟨emptyProcessTable, none⟩)

/-- The C1 witness run inserting the fresh PID 200. -/
def C1res : Option (Process × VmmProcState) :=
  VmmProcessCreateEntry C1st false 200 4 0 0x2000 0 "p200" true true

/-- The process object returned for PID 200. -/
def C1pr : Process := (C1res.getD C1def).1

/-- The state after inserting PID 200 (before the swap). -/
def C1st' : VmmProcState := (C1res.getD C1def).2

/-- The C1 witness run carrying the live PID 100 forward. -/
def C1res100 : Option (Process × VmmProcState) :=
  VmmProcessCreateEntry C1st false 100 0 0 0x1000 0 "pOld" true true

/-- The process object returned for PID 100 (expected: carried over). -/
def C1pr100 : Process := (C1res100.getD C1def).1

/-- The state after carrying PID 100 forward. -/
def C1st100 : VmmProcState := (C1res100.getD C1def).2

/-- C7 failing input, step 1: into a fresh generation, the first
process created has PID `0x1000`, whose start slot is
`0x1000 % VMM_PROCESSTABLE_ENTRIES_MAX = 0`, so it lands in slot 0 with
`_iFLinkM[0] = 0` (the zero-initialized `_iFLink`). -/
def C7res1 : Option (Process × VmmProcState) :=
  VmmProcessCreateEntry ⟨emptyProcessTable, none⟩ false 0x1000 4 0 0x3000 0 "slot0" true true

/-- C7 failing input, step 2: a second process (PID 1) is created, so
the insertion chain head moves to slot 1 while slot 0 keeps its
self-referential link. -/
def C7res2 : Option (Process × VmmProcState) :=
  VmmProcessCreateEntry (C7res1.getD C1def).2 false 1 4 0 0x4000 0 "second" true true

/-- The published (post-swap) table of the C7 failing input. -/
def C7live : ProcessTable := (VmmProcessCreateFinish (C7res2.getD C1def).2).live

/-- Witness input for C5: a single physical miss on a stocked cache. -/
def C5run : PhysResult :=
  VmmReadScatterPhysical (stockedCache 30) (fun _ => none) 0
    [⟨0x10000, 0x1000, [9], false⟩] 0 0

/-- The memory model of the C6 counterexample: virtual page `0x9000`
translates to physical `0x100000`; nothing is paged. -/
def C6mm : MemModel :=
  ⟨fun va => if va = 0x9000 then some 0x100000 else none,
   fun _ _ => .declined 0, true⟩

/-! ### Claim C3 -/

/-- C3: invalidation removes every matching cache entry — for every
active cache table `t` and every address `a`, after
`VmmCacheInvalidate_2 t a` a subsequent `VmmCacheGet` at `a` returns
NULL. -/
theorem VmmCacheInvalidate_2_then_get_none (t : CacheTable) (qwA : Nat)
    (hA : t.fActive = true) :
    VmmCacheGet (VmmCacheInvalidate_2 t qwA) qwA = none := by
  unfold VmmCacheInvalidate_2 VmmCacheGet
  simp only [hA, Bool.not_true, Bool.false_eq_true, if_false, ite_true]
  rw [List.find?_eq_none]
  intro e he
  have h2 := (List.mem_filter.mp he).2
  simpa using h2

/-- Witness for C3 at a concrete input: a table caching page `0x3000`
invalidated at `0x3000` no longer returns it. -/
theorem VmmCacheInvalidate_2_then_get_none_witness :
    VmmCacheGet (VmmCacheInvalidate_2 (cacheWith ⟨1, 0x3000, true, [0xCC]⟩) 0x3000) 0x3000
      = none :=
  VmmCacheInvalidate_2_then_get_none (cacheWith ⟨1, 0x3000, true, [0xCC]⟩) 0x3000 rfl

/-! ### Claim C2 -/

/-- Counterexample to C2 as stated: for a descriptor freshly obtained
from `VmmCacheReserve` (refcount 2, one reference held by the caller)
that is valid with a real address, returned to an active table,
`VmmCacheReserveReturn` does NOT increment the refcount by one: the
refcount stays 2 (the caller's reference is overtaken by the cache
region, vmm.c:194); the claimed value 3 is wrong. -/
theorem VmmCacheReserveReturn_increment_cex :
    (VmmCacheReserveReturn emptyActiveCache ⟨7, 0x1000, true, [0xAB]⟩ 2).rc = 2 ∧
    (VmmCacheReserveReturn emptyActiveCache ⟨7, 0x1000, true, [0xAB]⟩ 2).inserted = true ∧
    (VmmCacheReserveReturn emptyActiveCache ⟨7, 0x1000, true, [0xAB]⟩ 2).rc ≠ 2 + 1 := by
  refine ⟨rfl, rfl, by decide⟩

/-- C2 (amended): for a descriptor obtained from `VmmCacheReserve`
(refcount 2: the "total list" reference plus the caller's single
reference), `VmmCacheReserveReturn` behaves as follows.  If the table
is active, the valid flag is set and the address is not
`MEM_SCATTER_ADDR_INVALID`, the refcount is left unchanged (the
caller's reference is transferred to the cache) and the descriptor is
inserted at the head of the region's bucket chain and age list with the
region count incremented.  If the valid flag is false or the address is
invalid while the table is active, the refcount is decremented to 1,
whereupon the refcount-reaches-one hook re-increments it and pushes the
descriptor onto the empty stack.  If the table is inactive, the
decrement leaves the descriptor at refcount 1 and the hook declines. -/
theorem VmmCacheReserveReturn_contract (t : CacheTable) (e : MemEntry) :
    (t.fActive = true → e.f = true → e.qwA ≠ MEM_SCATTER_ADDR_INVALID →
      (VmmCacheReserveReturn t e 2).rc = 2 ∧
      (VmmCacheReserveReturn t e 2).inserted = true ∧
      (VmmCacheReserveReturn t e 2).toEmpty = false ∧
      ((VmmCacheReserveReturn t e 2).t.R (VMM_CACHE2_GET_REGION e.qwA)).B
          (VMM_CACHE2_GET_BUCKET e.qwA)
        = e :: (t.R (VMM_CACHE2_GET_REGION e.qwA)).B (VMM_CACHE2_GET_BUCKET e.qwA) ∧
      ((VmmCacheReserveReturn t e 2).t.R (VMM_CACHE2_GET_REGION e.qwA)).age
        = e :: (t.R (VMM_CACHE2_GET_REGION e.qwA)).age ∧
      ((VmmCacheReserveReturn t e 2).t.R (VMM_CACHE2_GET_REGION e.qwA)).c
        = (t.R (VMM_CACHE2_GET_REGION e.qwA)).c + 1) ∧
    (t.fActive = true → (e.f = false ∨ e.qwA = MEM_SCATTER_ADDR_INVALID) →
      (VmmCacheReserveReturn t e 2).rc = 2 ∧
      (VmmCacheReserveReturn t e 2).inserted = false ∧
      (VmmCacheReserveReturn t e 2).toEmpty = true ∧
      (VmmCacheReserveReturn t e 2).t.listEmpty = e :: t.listEmpty) ∧
    (t.fActive = false →
      (VmmCacheReserveReturn t e 2).rc = 1 ∧
      (VmmCacheReserveReturn t e 2).toEmpty = false) := by
  unfold VmmCacheReserveReturn
  refine ⟨?_, ?_, ?_⟩
  · intro hA hf hq
    rw [if_neg (by simp [hA, hf, hq])]
    simp
  · intro hA hfq
    have hcond : (!t.fActive || !e.f || e.qwA == MEM_SCATTER_ADDR_INVALID) = true := by
      rcases hfq with h | h <;> simp [h]
    rw [if_pos hcond]
    rw [if_pos (by simp [hA])]
    simp
  · intro hA
    rw [if_pos (by simp [hA])]
    rw [if_neg (by simp [hA])]
    simp

/-- Witness for C2 (amended) at concrete inputs: the success path on an
empty active table, and the recycle path for an invalid descriptor. -/
theorem VmmCacheReserveReturn_contract_witness :
    (VmmCacheReserveReturn emptyActiveCache ⟨7, 0x1000, true, [0xAB]⟩ 2).rc = 2 ∧
    (VmmCacheReserveReturn emptyActiveCache ⟨9, 0x2000, false, []⟩ 2).toEmpty = true :=
  ⟨((VmmCacheReserveReturn_contract emptyActiveCache ⟨7, 0x1000, true, [0xAB]⟩).1
      rfl rfl (by decide)).1,
   ((VmmCacheReserveReturn_contract emptyActiveCache ⟨9, 0x2000, false, []⟩).2.1
      rfl (Or.inl rfl)).2.2.1⟩

/-! ### Claim C9 -/

/-- C9: clones are never nested — `VmmProcessClone` returns NULL when
its argument is itself a clone, every clone it produces references the
original as its clone parent, and that parent is a non-clone object
(clone chains have depth at most one). -/
theorem VmmProcessClone_never_nested (p c : Process)
    (h : VmmProcessClone p = some c) :
    p.cloneParent = none ∧ c.cloneParent = some p ∧
    (∀ q, c.cloneParent = some q → q.cloneParent = none) := by
  unfold VmmProcessClone at h
  by_cases hp : p.cloneParent.isSome
  · simp [hp] at h
  · rw [if_neg hp] at h
    have hc : c = .clone p.d p := by
      injection h with h'
      exact h'.symm
    have hnone : p.cloneParent = none := Option.not_isSome_iff_eq_none.mp hp
    subst hc
    refine ⟨hnone, rfl, ?_⟩
    intro q hq
    have hpq : p = q := by simpa [Process.cloneParent] using hq
    rw [← hpq, hnone]

/-- Witness for C9 at a concrete input: cloning an ordinary process
yields a clone whose parent is that process and is itself not a clone. -/
theorem VmmProcessClone_never_nested_witness :
    (Process.clone ⟨4, 0, 0, 0x1ab000, 0, "System", false⟩
        (.base ⟨4, 0, 0, 0x1ab000, 0, "System", false⟩)).cloneParent
      = some (.base ⟨4, 0, 0, 0x1ab000, 0, "System", false⟩) :=
  (VmmProcessClone_never_nested
    (.base ⟨4, 0, 0, 0x1ab000, 0, "System", false⟩)
    (.clone ⟨4, 0, 0, 0x1ab000, 0, "System", false⟩
      (.base ⟨4, 0, 0, 0x1ab000, 0, "System", false⟩))
    (by decide)).2.1

/-! ### Claim C10 -/

/-- C10: zero-length file-style accesses report end-of-file — whenever
the offset is at or past the object size, or the requested length is
zero, both `VmmReadAsFile` and `VmmWriteAsFile` return
`STATUS_END_OF_FILE` with zero transferred bytes and perform no
read or write. -/
theorem VmmAsFile_zeroLength_eof (qwMemoryAddress cbMemorySize cb cbOffset : Nat)
    (h : cbMemorySize ≤ cbOffset ∨ cb = 0) :
    VmmReadAsFile qwMemoryAddress cbMemorySize cb cbOffset
      = ⟨STATUS_END_OF_FILE, 0, none⟩ ∧
    VmmWriteAsFile qwMemoryAddress cbMemorySize cb cbOffset
      = ⟨STATUS_END_OF_FILE, 0, none⟩ := by
  unfold VmmReadAsFile VmmWriteAsFile
  rcases h with h | h
  · simp [h]
  · subst h
    by_cases hoff : cbMemorySize ≤ cbOffset
    · simp [hoff]
    · simp [hoff]

/-- Witness for C10 at concrete inputs: offset past the end, and a
zero-length request at a valid offset. -/
theorem VmmAsFile_zeroLength_eof_witness :
    VmmReadAsFile 0x5000 0x100 8 0x200 = ⟨STATUS_END_OF_FILE, 0, none⟩ ∧
    VmmWriteAsFile 0x5000 0x100 0 0x10 = ⟨STATUS_END_OF_FILE, 0, none⟩ :=
  ⟨(VmmAsFile_zeroLength_eof 0x5000 0x100 8 0x200 (Or.inl (by decide))).1,
   (VmmAsFile_zeroLength_eof 0x5000 0x100 0 0x10 (Or.inr rfl)).2⟩

/-! ### Claim C1 -/

/-- A successful probe returns a process whose PID is the probed PID. -/
theorem ptFindGo_pid (pt : ProcessTable) (pid : Nat) :
    ∀ fuel i p, ptFindGo pt pid fuel i = some p → p.dwPID = pid := by
  intro fuel
  induction fuel with
  | zero => intro i p h; simp [ptFindGo] at h
  | succ n ih =>
    intro i p h
    unfold ptFindGo at h
    cases hM : pt.M i with
    | none =>
      simp only [hM] at h
      exact Option.noConfusion h
    | some q =>
      simp only [hM] at h
      by_cases hq : q.dwPID = pid
      · rw [if_pos hq] at h
        injection h with h'
        rw [← h']; exact hq
      · rw [if_neg hq] at h
        exact ih _ p h

/-- A successful install places the process in a previously empty slot
and leaves every other slot unchanged. -/
theorem ptInsertGo_spec (pt : ProcessTable) (p : Process) :
    ∀ fuel i pt', ptInsertGo pt p fuel i = some pt' →
      ∃ j, pt.M j = none ∧ ∀ k, pt'.M k = if k = j then some p else pt.M k := by
  intro fuel
  induction fuel with
  | zero => intro i pt' h; simp [ptInsertGo] at h
  | succ n ih =>
    intro i pt' h
    unfold ptInsertGo at h
    cases hM : pt.M i with
    | none =>
      simp only [hM] at h
      injection h with h'
      exact ⟨i, hM, fun k => by rw [← h']⟩
    | some q =>
      simp only [hM] at h
      exact ih _ pt' h

/-- If a probe for `pid` fails on `pt` and an install of `p` (with
`p.dwPID = pid`) starting at the same slot succeeds, the same probe on
the updated table finds exactly `p`. -/
theorem ptFindGo_insert (pt : ProcessTable) (pid : Nat) (p : Process)
    (hp : p.dwPID = pid) :
    ∀ fuel i pt', ptFindGo pt pid fuel i = none → ptInsertGo pt p fuel i = some pt' →
      ptFindGo pt' pid fuel i = some p := by
  intro fuel
  induction fuel with
  | zero => intro i pt' _ hins; simp [ptInsertGo] at hins
  | succ n ih =>
    intro i pt' hfind hins
    unfold ptFindGo at hfind ⊢
    unfold ptInsertGo at hins
    cases hM : pt.M i with
    | none =>
      simp only [hM] at hins
      injection hins with h'
      have hMi : pt'.M i = some p := by rw [← h']; simp
      simp only [hMi, if_pos hp]
    | some q =>
      simp only [hM] at hfind hins
      have hq : ¬ q.dwPID = pid := by
        intro hqq
        rw [if_pos hqq] at hfind
        exact Option.noConfusion hfind
      rw [if_neg hq] at hfind
      obtain ⟨j, hjnone, hupd⟩ := ptInsertGo_spec pt p n _ pt' hins
      have hij : i ≠ j := fun hij => by rw [hij, hjnone] at hM; exact Option.noConfusion hM
      have hMi : pt'.M i = some q := by rw [hupd i, if_neg hij, hM]
      simp only [hMi]
      rw [if_neg hq]
      exact ih _ pt' hfind hins

/-- Without the clone bit, `VmmProcessGetEx` is exactly the
open-addressing probe. -/
theorem VmmProcessGetEx_noclone (pt : ProcessTable) (pid : Nat)
    (h : pid &&& VMM_PID_PROCESS_CLONE_WITH_KERNELMEMORY = 0) :
    VmmProcessGetEx pt pid = ptFind pt pid := by
  unfold VmmProcessGetEx
  cases hf : ptFind pt pid <;> simp [hf, h]

/-- Inversion of a successful `VmmProcessCreateEntry`: the live table
is untouched, the returned state's next-generation table is the old one
(or a fresh empty one) with the returned process installed, that
process is the carried-over live-table object when available (and not a
total refresh) or a freshly allocated one, and the PID was not already
present in the next-generation table. -/
theorem VmmProcessCreateEntry_inv
    (st : VmmProcState) (fT : Bool) (pid ppid state dtb dtbu : Nat) (nm : String)
    (uo dtbOk : Bool) (pr : Process) (st' : VmmProcState)
    (h : VmmProcessCreateEntry st fT pid ppid state dtb dtbu nm uo dtbOk = some (pr, st')) :
    ∃ ptNew', st'.live = st.live ∧ st'.nextg = some ptNew' ∧
      VmmProcessGetEx (st.nextg.getD emptyProcessTable) pid = none ∧
      pr = ((if !fT then VmmProcessGetEx st.live pid else none).getD
        (.base ⟨pid, ppid, state, dtb, dtbu, nm, uo⟩)) ∧
      ptInsert (st.nextg.getD emptyProcessTable) pr = some ptNew' := by
  unfold VmmProcessCreateEntry at h
  by_cases hc1 : (decide (state = 0) && !dtbOk) = true
  · rw [if_pos hc1] at h
    exact Option.noConfusion h
  · rw [if_neg hc1] at h
    simp only [] at h
    by_cases hc2 : (VmmProcessGetEx (st.nextg.getD emptyProcessTable) pid).isSome = true
    · rw [if_pos hc2] at h
      exact Option.noConfusion h
    · rw [if_neg hc2] at h
      split at h
      · next ptNew' hins =>
        injection h with h'
        injection h' with hpr hst
        refine ⟨ptNew', ?_, ?_, ?_, ?_, ?_⟩
        · rw [← hst]
        · rw [← hst]
        · exact Option.not_isSome_iff_eq_none.mp hc2
        · rw [← hpr]
        · rw [← hpr]; exact hins
      · exact Option.noConfusion h

/-- C1: generation swap visibility — for every PID `pid` (without the
clone pseudo-bit) inserted into the next-generation table by a
successful `VmmProcessCreateEntry`, as long as the PID does not probe
successfully in the live table, `VmmProcessGetEx` on the live table
returns NULL before `VmmProcessCreateFinish` and returns exactly the
inserted process object afterwards; a PID carried over from the
previous generation (`fTotalRefresh = false` and PID present in the old
table) is returned as the same carried-over process object. -/
theorem VmmProcess_generation_swap
    (st : VmmProcState) (fT : Bool) (pid ppid state dtb dtbu : Nat) (nm : String)
    (uo dtbOk : Bool) (pr : Process) (st' : VmmProcState)
    (h1 : VmmProcessCreateEntry st fT pid ppid state dtb dtbu nm uo dtbOk = some (pr, st'))
    (h3 : pid &&& VMM_PID_PROCESS_CLONE_WITH_KERNELMEMORY = 0) :
    (ptFind st'.live pid = none → VmmProcessGetEx st'.live pid = none) ∧
    VmmProcessGetEx (VmmProcessCreateFinish st').live pid = some pr ∧
    (∀ pOld, fT = false → ptFind st.live pid = some pOld → pr = pOld) := by
  obtain ⟨ptNew', hlive, hnextg, hnotin, hpr, hins⟩ :=
    VmmProcessCreateEntry_inv st fT pid ppid state dtb dtbu nm uo dtbOk pr st' h1
  have hprpid : pr.dwPID = pid := by
    rw [hpr]
    cases hfT : fT with
    | true => rfl
    | false =>
      rw [VmmProcessGetEx_noclone st.live pid h3]
      cases hfind : ptFind st.live pid with
      | none => rfl
      | some q =>
        have hqq := ptFindGo_pid st.live pid _ _ q hfind
        simpa [hfind] using hqq
  refine ⟨?_, ?_, ?_⟩
  · intro h2
    rw [VmmProcessGetEx_noclone st'.live pid h3]
    exact h2
  · have hfinish : (VmmProcessCreateFinish st').live = ptNew' := by
      unfold VmmProcessCreateFinish
      rw [hnextg]
    rw [hfinish, VmmProcessGetEx_noclone ptNew' pid h3]
    have hfnone : ptFind (st.nextg.getD emptyProcessTable) pid = none := by
      cases hf : ptFind (st.nextg.getD emptyProcessTable) pid with
      | none => rfl
      | some q =>
        rw [VmmProcessGetEx_noclone _ pid h3, hf] at hnotin
        exact Option.noConfusion hnotin
    unfold ptFind
    unfold ptInsert at hins
    rw [hprpid] at hins
    exact ptFindGo_insert (st.nextg.getD emptyProcessTable) pid pr hprpid
      VMM_PROCESSTABLE_ENTRIES_MAX (pid % VMM_PROCESSTABLE_ENTRIES_MAX) ptNew'
      (by unfold ptFind at hfnone; exact hfnone) hins
  · intro pOld hfT hfind
    rw [hpr, hfT]
    rw [VmmProcessGetEx_noclone st.live pid h3]
    simp [hfind]


/-- Witness for C1 at concrete inputs: before the swap PID 200 is
invisible, after the swap it resolves to the inserted object; the
carried PID 100 resolves to the very object of the previous
generation. -/
theorem VmmProcess_generation_swap_witness :
    VmmProcessGetEx C1st'.live 200 = none ∧
    VmmProcessGetEx (VmmProcessCreateFinish C1st').live 200 = some C1pr ∧
    C1pr100 = Process.base ⟨100, 0, 0, 0x1000, 0, "pOld", true⟩ ∧
    VmmProcessGetEx (VmmProcessCreateFinish C1st100).live 100 = some C1pr100 :=
  have h200 := VmmProcess_generation_swap C1st false 200 4 0 0x2000 0 "p200" true true
    C1pr C1st' rfl (by decide)
  have h100 := VmmProcess_generation_swap C1st false 100 0 0 0x1000 0 "pOld" true true
    C1pr100 C1st100 rfl (by decide)
  ⟨h200.1 (by decide), h200.2.1,
   h100.2.2 (Process.base ⟨100, 0, 0, 0x1000, 0, "pOld", true⟩) rfl (by decide),
   h100.2.1⟩

/-! ### Claim C7 -/


/-- C7 failing input evaluated: the table holds `c = 2` processes and
the count mode duly reports 2, but the copy walk never terminates —
after emitting PID 1 it reaches slot 0 and then follows
`_iFLinkM[0] = 0` back to slot 0 forever, since the
`iProcess == _iFLink` cycle guard only checks against the chain head
(slot 1).  With walk fuel 8 the embedding emits 8 PIDs, duplicating
PID `0x1000`, instead of the 2 distinct PIDs the claim requires. -/
theorem VmmProcessListPIDs_slot0_cycle :
    C7live.c = 2 ∧
    VmmProcessListPIDs_count C7live 0 0 = 2 ∧
    VmmProcessListPIDs_copy C7live 0 0 10 8
      = [1, 0x1000, 0x1000, 0x1000, 0x1000, 0x1000, 0x1000, 0x1000] ∧
    ¬ (VmmProcessListPIDs_copy C7live 0 0 10 8).Nodup := by
  refine ⟨by decide, by decide, by decide, by decide⟩

/-! ### Claim C8 -/

/-- C8 evaluated: `VmmReadEx`/`VmmRead` with `cb = 0` are generally
no-ops that succeed (the `if(!cb) return;` guard at vmm.c:1860), but
`VmmWriteEx` has no such guard: with `cb = 0` and an unaligned address
(`qwA = 0x801`) it computes `cMEMs = ((qwA & 0xfff) + 0 + 0xfff) >> 12
= 1` while the page-splitting loop builds no descriptor, so the
transport's scatter write is invoked with count 1 over a NULL
descriptor pointer, which the post-write statistics loop then
dereferences (`descs = [none]`, `crash = true`). -/
theorem VmmWriteEx_zeroLength_unaligned_bug :
    (∀ (mmOpt : Option MemModel) (t : CacheTable) (dev : Nat → Option (List Nat))
       (paMax qwA : Nat) (pb : List Nat) (gFlags : Nat),
       VmmReadEx mmOpt t dev paMax qwA pb 0 0 gFlags = ⟨pb, 0, false, t⟩ ∧
       VmmRead mmOpt t dev paMax qwA pb 0 gFlags = true) ∧
    (VmmWriteEx none (fun _ => true) emptyActiveCache emptyActiveCache 0x801 [] 0).devCount
      = some 1 ∧
    (VmmWriteEx none (fun _ => true) emptyActiveCache emptyActiveCache 0x801 [] 0).descs
      = [none] ∧
    (VmmWriteEx none (fun _ => true) emptyActiveCache emptyActiveCache 0x801 [] 0).crash
      = true ∧
    (VmmWriteEx none (fun _ => true) emptyActiveCache emptyActiveCache 0x2000 [] 0).devCount
      = some 0 ∧
    (VmmWriteEx none (fun _ => true) emptyActiveCache emptyActiveCache 0x2000 [] 0).crash
      = false :=
  ⟨fun _ _ _ _ _ _ _ => ⟨rfl, rfl⟩, by decide, by decide, by decide, by decide, by decide⟩

/-! ### Claim C4 -/

/-- Counterexample to C4 as stated: with `VMM_FLAG_FORCECACHE_READ`
*and* `VMM_FLAG_NOCACHE` both set, the cache phase (and with it the
`FORCECACHE_READ` early return, which sits inside `if(fCache)`,
vmm.c:1548/1576) is skipped entirely, so `VmmReadScatterPhysical` does
invoke the transport — the batch is handed to the device and the
missing descriptor comes back valid, against the claim's "never
invokes" and "left with valid = false". -/
theorem VmmReadScatterPhysical_forcecache_cex :
    (VmmReadScatterPhysical emptyActiveCache (fun _ => some [0xEE]) 0x100000000
        [⟨0x7000, 0x1000, [1], false⟩]
        (VMM_FLAG_NOCACHE ||| VMM_FLAG_FORCECACHE_READ) 0).batch
      = some [⟨0x7000, 0x1000, [1], false⟩] ∧
    (VmmReadScatterPhysical emptyActiveCache (fun _ => some [0xEE]) 0x100000000
        [⟨0x7000, 0x1000, [1], false⟩]
        (VMM_FLAG_NOCACHE ||| VMM_FLAG_FORCECACHE_READ) 0).mems
      = [⟨0x7000, 0x1000, [0xEE], true⟩] := by
  refine ⟨by decide, by decide⟩

/-- C4 (amended): provided `VMM_FLAG_NOCACHE` is absent from
`flags | ctxVmm->flags`, a flags value containing
`VMM_FLAG_FORCECACHE_READ` makes `VmmReadScatterPhysical` cache-only:
the transport's scatter read is never invoked, every invalid descriptor
found in the PHYS cache (full-page request whose address hits) is
filled from the cache and marked valid, and every invalid descriptor
not found in the cache is left with `valid = false`. -/
theorem VmmReadScatterPhysical_forcecache (t : CacheTable) (dev : Nat → Option (List Nat))
    (paMax : Nat) (mems : List MEM) (flags gFlags : Nat)
    (hnc : (flags ||| gFlags) &&& VMM_FLAG_NOCACHE = 0)
    (hfc : flags &&& VMM_FLAG_FORCECACHE_READ ≠ 0) :
    (VmmReadScatterPhysical t dev paMax mems flags gFlags).batch = none ∧
    ∀ (i : Nat) (m : MEM), mems[i]? = some m → m.f = false →
      ((∀ e, m.cb = 0x1000 → VmmCacheGet t m.qwA = some e →
          (VmmReadScatterPhysical t dev paMax mems flags gFlags).mems[i]?
            = some { m with f := true, pb := e.pb }) ∧
       ((m.cb = 0x1000 → VmmCacheGet t m.qwA = none) →
          (VmmReadScatterPhysical t dev paMax mems flags gFlags).mems[i]? = some m)) := by
  unfold VmmReadScatterPhysical
  simp only []
  rw [if_pos hnc, if_pos (Or.inr hfc)]
  refine ⟨rfl, ?_⟩
  intro i m hm hmf
  constructor
  · intro e hcb hget
    have hph : (physPhase1 t m).1 = { m with f := true, pb := e.pb } := by
      unfold physPhase1
      rw [if_neg (by simp [hmf]), if_pos hcb, hget]
    show ((mems.map (physPhase1 t)).map Prod.fst)[i]? = _
    rw [List.getElem?_map, List.getElem?_map, hm, Option.map_some', Option.map_some', hph]
  · intro hmiss
    have hph : (physPhase1 t m).1 = m := by
      unfold physPhase1
      rw [if_neg (by simp [hmf])]
      by_cases hcb : m.cb = 0x1000
      · rw [if_pos hcb, hmiss hcb]
      · rw [if_neg hcb]
    show ((mems.map (physPhase1 t)).map Prod.fst)[i]? = _
    rw [List.getElem?_map, List.getElem?_map, hm, Option.map_some', Option.map_some', hph]

/-- Witness for C4 (amended) at concrete inputs: one cache hit is
filled from the cache, one miss stays invalid, and the device batch is
absent. -/
theorem VmmReadScatterPhysical_forcecache_witness :
    (VmmReadScatterPhysical (cacheWith ⟨1, 0x3000, true, [0xCC]⟩) (fun _ => some [0xEE])
        0x100000000 [⟨0x3000, 0x1000, [0], false⟩, ⟨0x5000, 0x1000, [7], false⟩]
        VMM_FLAG_FORCECACHE_READ 0).batch = none ∧
    (VmmReadScatterPhysical (cacheWith ⟨1, 0x3000, true, [0xCC]⟩) (fun _ => some [0xEE])
        0x100000000 [⟨0x3000, 0x1000, [0], false⟩, ⟨0x5000, 0x1000, [7], false⟩]
        VMM_FLAG_FORCECACHE_READ 0).mems[0]? = some ⟨0x3000, 0x1000, [0xCC], true⟩ ∧
    (VmmReadScatterPhysical (cacheWith ⟨1, 0x3000, true, [0xCC]⟩) (fun _ => some [0xEE])
        0x100000000 [⟨0x3000, 0x1000, [0], false⟩, ⟨0x5000, 0x1000, [7], false⟩]
        VMM_FLAG_FORCECACHE_READ 0).mems[1]? = some ⟨0x5000, 0x1000, [7], false⟩ :=
  have h := VmmReadScatterPhysical_forcecache (cacheWith ⟨1, 0x3000, true, [0xCC]⟩)
    (fun _ => some [0xEE]) 0x100000000
    [⟨0x3000, 0x1000, [0], false⟩, ⟨0x5000, 0x1000, [7], false⟩]
    VMM_FLAG_FORCECACHE_READ 0 (by decide) (by decide)
  ⟨h.1,
   (h.2 0 ⟨0x3000, 0x1000, [0], false⟩ rfl rfl).1 ⟨1, 0x3000, true, [0xCC]⟩ rfl (by decide),
   (h.2 1 ⟨0x5000, 0x1000, [7], false⟩ rfl rfl).2 (fun _ => by decide)⟩

/-! ### Claim C5 -/

/-- The speculative fabrication produces exactly the requested number
of descriptors. -/
theorem specFabricate_length : ∀ (n : Nat) (prev : MEM) (t : CacheTable),
    (specFabricate n prev t).1.length = n := by
  intro n
  induction n with
  | zero => intro prev t; rfl
  | succ m ih =>
    intro prev t
    unfold specFabricate
    simp only [List.length_cons]
    rw [ih]

/-- Closed form of the fabricated addresses: the `j`-th fabricated
descriptor addresses the `(j+1)`-st page after the (page-aligned)
predecessor. -/
theorem specFabricate_qwA (d : MemEntry) : ∀ (n : Nat) (prev : MEM) (t : CacheTable)
    (j : Nat), j < n →
    ((specFabricate n prev t).1.getD j d).qwA = (prev.qwA / 0x1000 + (j + 1)) * 0x1000 := by
  intro n
  induction n with
  | zero => intro prev t j hj; omega
  | succ m ih =>
    intro prev t j hj
    unfold specFabricate
    simp only []
    cases j with
    | zero =>
      simp only [List.getD_cons_zero]
      show (prev.qwA / 0x1000) * 0x1000 + 0x1000 = (prev.qwA / 0x1000 + (0 + 1)) * 0x1000
      ring
    | succ j' =>
      simp only [List.getD_cons_succ]
      rw [ih _ _ j' (by omega)]
      simp only [MemEntry.toMEM]
      have hdiv : ((prev.qwA / 0x1000) * 0x1000 + 0x1000) / 0x1000 = prev.qwA / 0x1000 + 1 := by
        have h2 : (prev.qwA / 0x1000) * 0x1000 + 0x1000 = (prev.qwA / 0x1000 + 1) * 0x1000 := by
          ring
        rw [h2, Nat.mul_div_cancel _ (by norm_num)]
      rw [hdiv]
      ring

/-- `getD` through a `map`, for in-range indices. -/
theorem listGetD_map {α β : Type} (f : α → β) (l : List α) (j : Nat) (hj : j < l.length)
    (d : β) (d' : α) : (l.map f).getD j d = f (l.getD j d') := by
  rw [List.getD_eq_getElem _ _ (by simpa using hj), List.getD_eq_getElem _ _ hj,
    List.getElem_map]

/-- The speculative batch always holds exactly `0x18` descriptors
(when at most `0x18` misses were collected). -/
theorem physSpecBatch_length (t : CacheTable) (m1 : List MEM) (missIdx : List Nat)
    (hk : missIdx.length ≤ 0x18) : (physSpecBatch t m1 missIdx).1.length = 0x18 := by
  unfold physSpecBatch
  simp only [List.length_append, List.length_map, specFabricate_length]
  omega

/-- Every fabricated entry of the speculative batch addresses the
page-aligned address of the preceding batch entry plus `0x1000`. -/
theorem physSpecBatch_chain (t : CacheTable) (m1 : List MEM) (missIdx : List Nat)
    (hk0 : 0 < missIdx.length) (hk : missIdx.length < 0x18) :
    ∀ i, missIdx.length ≤ i → i < 0x18 →
      ((physSpecBatch t m1 missIdx).1.getD i MEMdflt).qwA
        = (((physSpecBatch t m1 missIdx).1.getD (i - 1) MEMdflt).qwA / 0x1000) * 0x1000
          + 0x1000 := by
  intro i hki hi
  unfold physSpecBatch
  simp only []
  have hbmlen : (missIdx.map (fun i => m1.getD i MEMdflt)).length = missIdx.length :=
    List.length_map _ _
  have hfablen : ∀ prev, (specFabricate (0x18 - missIdx.length) prev t).1.length
      = 0x18 - missIdx.length := fun prev => specFabricate_length _ _ _
  set bm := missIdx.map (fun i => m1.getD i MEMdflt) with hbm
  set prev := bm.getD (missIdx.length - 1) MEMdflt with hprev
  set fabs := (specFabricate (0x18 - missIdx.length) prev t).1 with hfabs
  have hmaplen : (fabs.map MemEntry.toMEM).length = 0x18 - missIdx.length := by
    rw [List.length_map, hfabs, specFabricate_length]
  have hL : ((bm ++ fabs.map MemEntry.toMEM).getD i MEMdflt).qwA
      = (prev.qwA / 0x1000 + (i - missIdx.length + 1)) * 0x1000 := by
    rw [List.getD_append_right _ _ _ _ (by omega)]
    rw [listGetD_map _ _ _ (by rw [hfabs, specFabricate_length]; omega) _
      ⟨0, 0, false, []⟩]
    have : (MemEntry.toMEM (fabs.getD (i - bm.length) ⟨0, 0, false, []⟩)).qwA
        = (fabs.getD (i - bm.length) ⟨0, 0, false, []⟩).qwA := rfl
    rw [this, hfabs]
    rw [specFabricate_qwA _ _ _ _ _ (by omega)]
    rw [hbmlen]
  rcases Nat.eq_or_lt_of_le hki with heq | hlt
  · -- seam: the first fabricated entry follows the last collected miss
    have hR : (bm ++ fabs.map MemEntry.toMEM).getD (i - 1) MEMdflt = prev := by
      rw [List.getD_append _ _ _ _ (by omega), hprev]
      congr 1
      omega
    rw [hL, hR, ← heq]
    simp only [Nat.sub_self]
    ring
  · -- inside the fabricated run: both sides are fabricated entries
    have hR : ((bm ++ fabs.map MemEntry.toMEM).getD (i - 1) MEMdflt).qwA
        = (prev.qwA / 0x1000 + (i - 1 - missIdx.length + 1)) * 0x1000 := by
      rw [List.getD_append_right _ _ _ _ (by omega)]
      rw [listGetD_map _ _ _ (by rw [hfabs, specFabricate_length]; omega) _
        ⟨0, 0, false, []⟩]
      have : (MemEntry.toMEM (fabs.getD (i - 1 - bm.length) ⟨0, 0, false, []⟩)).qwA
          = (fabs.getD (i - 1 - bm.length) ⟨0, 0, false, []⟩).qwA := rfl
      rw [this, hfabs]
      rw [specFabricate_qwA _ _ _ _ _ (by omega)]
      rw [hbmlen]
    rw [hL, hR]
    have hdiv : ((prev.qwA / 0x1000 + (i - 1 - missIdx.length + 1)) * 0x1000) / 0x1000
        = prev.qwA / 0x1000 + (i - 1 - missIdx.length + 1) :=
      Nat.mul_div_cancel _ (by norm_num)
    rw [hdiv]
    have : i - missIdx.length + 1 = (i - 1 - missIdx.length + 1) + 1 := by omega
    rw [this]
    ring

/-- C5: speculative readahead bound and addressing — whenever
`VmmReadScatterPhysical` fabricates speculative descriptors (reported
by `specReal = some k`, the number of real cache misses in the batch),
the miss count satisfies `1 ≤ k < 0x18`, the batch passed to the device
contains exactly `0x18` descriptors (so it never exceeds 24), and every
fabricated entry (positions `k ≤ i < 0x18`) addresses the page-aligned
address of the preceding batch entry plus `0x1000`. -/
theorem VmmReadScatterPhysical_speculative
    (t : CacheTable) (dev : Nat → Option (List Nat)) (paMax : Nat)
    (mems : List MEM) (flags gFlags : Nat) (k : Nat)
    (h : (VmmReadScatterPhysical t dev paMax mems flags gFlags).specReal = some k) :
    1 ≤ k ∧ k < 0x18 ∧
    ((VmmReadScatterPhysical t dev paMax mems flags gFlags).batch.getD []).length = 0x18 ∧
    (∀ i, k ≤ i → i < 0x18 →
      (((VmmReadScatterPhysical t dev paMax mems flags gFlags).batch.getD []).getD i
          MEMdflt).qwA
        = ((((VmmReadScatterPhysical t dev paMax mems flags gFlags).batch.getD []).getD
            (i - 1) MEMdflt).qwA / 0x1000) * 0x1000 + 0x1000) := by
  unfold VmmReadScatterPhysical at h ⊢
  simp only [] at h ⊢
  split at h
  · next hnc =>
    rw [if_pos hnc]
    split at h
    · next he => simp at h
    · next he =>
      rw [if_neg he]
      split at h
      · next hk =>
        rw [if_pos hk]
        have hkeq := Option.some.inj h
        refine ⟨by omega, by omega, ?_, ?_⟩
        · exact physSpecBatch_length t _ _ (by omega)
        · exact fun i hki hiu =>
            physSpecBatch_chain t _ _ hk.1 hk.2 i (by omega) hiu
      · next hk => simp at h
  · next hnc => simp at h


/-- Witness for C5 at a concrete input: one miss yields a 24-descriptor
batch whose sixth entry continues the page run of the fifth. -/
theorem VmmReadScatterPhysical_speculative_witness :
    (C5run.batch.getD []).length = 0x18 ∧
    ((C5run.batch.getD []).getD 5 MEMdflt).qwA
      = (((C5run.batch.getD []).getD 4 MEMdflt).qwA / 0x1000) * 0x1000 + 0x1000 :=
  have h := VmmReadScatterPhysical_speculative (stockedCache 30) (fun _ => none) 0
    [⟨0x10000, 0x1000, [9], false⟩] 0 0 1 (by decide)
  ⟨h.2.2.1, h.2.2.2 5 (by decide) (by decide)⟩

/-! ### Claim C6 -/

/-- In every branch, the batch after the device read and zero-fixups is
the image of the device batch under per-descriptor device read plus
zero-fixup. -/
theorem VmmReadScatterPhysical_batchAfter (t : CacheTable) (dev : Nat → Option (List Nat))
    (paMax : Nat) (mems : List MEM) (flags gFlags : Nat) :
    (VmmReadScatterPhysical t dev paMax mems flags gFlags).batchAfter
      = ((VmmReadScatterPhysical t dev paMax mems flags gFlags).batch).map
          (List.map (fun m => physZeroFix flags paMax (lcReadScatterOne dev m))) := by
  unfold VmmReadScatterPhysical
  simp only []
  split
  · split
    · rfl
    · split
      · rfl
      · rfl
  · rfl

/-- Every task produced by `taskCollect` records an in-range index of a
pair that carries that task. -/
theorem taskCollect_mem : ∀ (l : List (MEM × Option MEM)) (i0 : Nat) (p : Nat × MEM),
    p ∈ taskCollect i0 l →
      i0 ≤ p.1 ∧ p.1 - i0 < l.length ∧ (l.getD (p.1 - i0) (MEMdflt, none)).2 = some p.2 := by
  intro l
  induction l with
  | nil => intro i0 p hp; simp [taskCollect] at hp
  | cons hd tl ih =>
    intro i0 p hp
    match hd, hp with
    | (m, none), hp =>
      unfold taskCollect at hp
      obtain ⟨h1, h2, h3⟩ := ih (i0 + 1) p hp
      refine ⟨by omega, by simp; omega, ?_⟩
      have hidx : p.1 - i0 = (p.1 - (i0 + 1)) + 1 := by omega
      rw [hidx, List.getD_cons_succ]
      exact h3
    | (m, some tm), hp =>
      unfold taskCollect at hp
      rcases List.mem_cons.mp hp with heq | hmem
      · subst heq
        refine ⟨Nat.le_refl _, by simp, ?_⟩
        simp
      · obtain ⟨h1, h2, h3⟩ := ih (i0 + 1) p hmem
        refine ⟨by omega, by simp; omega, ?_⟩
        have hidx : p.1 - i0 = (p.1 - (i0 + 1)) + 1 := by omega
        rw [hidx, List.getD_cons_succ]
        exact h3

/-- The writeback fold leaves every position it does not target
unchanged. -/
theorem writebackVirt_notask : ∀ (upd : List (Nat × MEM)) (ms : List MEM) (i : Nat),
    (∀ p ∈ upd, p.1 ≠ i) → (writebackVirt ms upd)[i]? = ms[i]? := by
  intro upd
  induction upd with
  | nil => intro ms i _; rfl
  | cons hd tl ih =>
    intro ms i hne
    unfold writebackVirt
    rw [List.foldl_cons]
    have h1 : (writebackVirt (ms.set hd.1
        { ms.getD hd.1 ⟨0, 0, [], false⟩ with f := hd.2.f, pb := hd.2.pb }) tl)[i]?
        = (ms.set hd.1 { ms.getD hd.1 ⟨0, 0, [], false⟩ with f := hd.2.f, pb := hd.2.pb })[i]? :=
      ih _ i (fun p hp => hne p (List.mem_cons_of_mem hd hp))
    unfold writebackVirt at h1
    rw [h1]
    exact List.getElem?_set_ne (hne hd (List.mem_cons_self hd tl))

/-- A virtual descriptor for which stage 2 produced no physical task
ends up exactly in its stage-2 state. -/
theorem VmmReadScatterVirtual_notask (mm : MemModel) (t : CacheTable)
    (dev : Nat → Option (List Nat)) (paMax : Nat) (mems : List MEM) (flags gFlags : Nat)
    (i : Nat) (m : MEM) (hm : mems[i]? = some m)
    (hnt : (virtOne mm flags gFlags m).2 = none) :
    (VmmReadScatterVirtual mm t dev paMax mems flags gFlags).mems[i]?
      = some (virtOne mm flags gFlags m).1 := by
  have hilen : i < mems.length := by
    by_contra hni
    rw [List.getElem?_eq_none (by omega)] at hm
    exact Option.noConfusion hm
  have hpairs : (mems.map (virtOne mm flags gFlags)).getD i (MEMdflt, none)
      = virtOne mm flags gFlags m := by
    rw [listGetD_map _ _ _ hilen _ MEMdflt]
    congr 1
    rw [List.getD_eq_getElem _ _ hilen]
    exact Option.some.inj (by rw [← hm, List.getElem?_eq_getElem hilen])
  have hmap : ((mems.map (virtOne mm flags gFlags)).map Prod.fst)[i]?
      = some (virtOne mm flags gFlags m).1 := by
    rw [List.getElem?_map, List.getElem?_map, hm, Option.map_some', Option.map_some']
  unfold VmmReadScatterVirtual
  simp only []
  split
  · exact hmap
  · rw [writebackVirt_notask _ _ i ?hne]
    · exact hmap
    case hne =>
      intro p hp hpi
      have hfst : p.1 ∈ (taskCollect 0 (mems.map (virtOne mm flags gFlags))).map Prod.fst :=
        (List.of_mem_zip hp).1
      obtain ⟨q', hq', hq'1⟩ := List.mem_map.mp hfst
      obtain ⟨_, hlt, htask⟩ := taskCollect_mem _ 0 q' hq'
      rw [Nat.sub_zero] at htask
      rw [hq'1, hpi, hpairs, hnt] at htask
      exact Option.noConfusion htask


/-- Counterexample to C6 as stated: a virtual read with
`VMM_FLAG_ZEROPAD_ON_FAIL` whose translation succeeds to a physical
address at or above `dev.paMax` (`0x100000 ≥ 0x5000`) and whose device
read fails is NOT zero-filled — the physical stage-4 fixup
(vmm.c:1614) skips addresses at or above `paMax` and
`VmmReadScatterVirtual` performs no zero-fill of its own after
writeback, so the buffer keeps its old bytes `[7]` and the descriptor
stays invalid, against the claim's "zero-filled on any failure". -/
theorem VmmReadScatterVirtual_zeropad_cex :
    (VmmReadScatterVirtual C6mm (stockedCache 30) (fun _ => none) 0x5000
        [⟨0x9000, 0x1000, [7], false⟩] VMM_FLAG_ZEROPAD_ON_FAIL 0).mems
      = [⟨0x9000, 0x1000, [7], false⟩] ∧
    ([7] : List Nat) ≠ List.replicate 0x1000 0 := by
  refine ⟨by decide, by decide⟩

/-- C6 (amended): `VMM_FLAG_ZEROPAD_ON_FAIL` semantics.  Physical: for
every batch descriptor whose device read failed, if the call flags
contain the flag and the address is strictly below `dev.paMax` the
buffer is zero-filled and the valid flag set; otherwise (including
every failed descriptor at or above `paMax`) the descriptor is left
unchanged and invalid.  Virtual: a descriptor that fails before
reaching the physical stage — already-failed sentinel address, or
translation failure with the paged decoder declining — has its buffer
zero-filled (staying invalid); a descriptor whose physical read fails
is zero-filled (and marked valid) only by the physical rule above, so
at or above `paMax` it is left unzeroed. -/
theorem VmmScatter_zeropad_on_fail (flags gFlags paMax : Nat) :
    (∀ (t : CacheTable) (dev : Nat → Option (List Nat)) (mems b : List MEM)
       (i : Nat) (m : MEM),
       (VmmReadScatterPhysical t dev paMax mems flags gFlags).batch = some b →
       b[i]? = some m → m.f = false → dev m.qwA = none →
       ((VmmReadScatterPhysical t dev paMax mems flags gFlags).batchAfter.getD [])[i]?
         = some (if flags &&& VMM_FLAG_ZEROPAD_ON_FAIL ≠ 0 ∧ m.qwA < paMax
             then { m with pb := List.replicate m.cb 0, f := true } else m)) ∧
    (∀ (mm : MemModel) (t : CacheTable) (dev : Nat → Option (List Nat))
       (mems : List MEM) (i : Nat) (m : MEM),
       mems[i]? = some m → m.f = false →
       (m.qwA = 0 ∨ m.qwA = MEM_SCATTER_ADDR_INVALID) →
       (flags ||| gFlags) &&& VMM_FLAG_ZEROPAD_ON_FAIL ≠ 0 →
       (VmmReadScatterVirtual mm t dev paMax mems flags gFlags).mems[i]?
         = some { m with pb := List.replicate m.cb 0 }) ∧
    (∀ (mm : MemModel) (t : CacheTable) (dev : Nat → Option (List Nat))
       (mems : List MEM) (i : Nat) (m : MEM),
       mems[i]? = some m → m.f = false → m.qwA ≠ 0 → m.qwA ≠ MEM_SCATTER_ADDR_INVALID →
       flags &&& VMM_FLAG_ALTADDR_VA_PTE = 0 → mm.virt2phys m.qwA = none →
       ((flags ||| gFlags) &&& VMM_FLAG_NOPAGING ≠ 0 ∨ m.cb ≠ 0x1000 ∨
        mm.hasPagedRead = false ∨ mm.pagedRead m.qwA 0 = PagedReadResult.declined 0) →
       (flags ||| gFlags) &&& VMM_FLAG_ZEROPAD_ON_FAIL ≠ 0 →
       (VmmReadScatterVirtual mm t dev paMax mems flags gFlags).mems[i]?
         = some { m with pb := List.replicate m.cb 0 }) := by
  refine ⟨?_, ?_, ?_⟩
  · intro t dev mems b i m hb hm hmf hdev
    have hba := VmmReadScatterPhysical_batchAfter t dev paMax mems flags gFlags
    rw [hb, Option.map_some'] at hba
    rw [hba, Option.getD_some, List.getElem?_map, hm, Option.map_some']
    have hlc : lcReadScatterOne dev m = m := by
      unfold lcReadScatterOne
      rw [if_neg (by simp [hmf]), hdev]
    have hzf : physZeroFix flags paMax m
        = if flags &&& VMM_FLAG_ZEROPAD_ON_FAIL ≠ 0 ∧ m.qwA < paMax
          then { m with pb := List.replicate m.cb 0, f := true } else m := by
      unfold physZeroFix
      rw [if_neg (by simp [hmf])]
    rw [hlc, hzf]
  · intro mm t dev mems i m hm hmf hz hzero
    have hone : virtOne mm flags gFlags m = ({ m with pb := List.replicate m.cb 0 }, none) := by
      unfold virtOne
      simp only []
      rw [if_pos (by rcases hz with h | h
                     · exact Or.inr (Or.inl h)
                     · exact Or.inr (Or.inr h))]
      rw [if_pos ⟨by simp [hmf], hzero⟩]
    have := VmmReadScatterVirtual_notask mm t dev paMax mems flags gFlags i m hm
      (by rw [hone])
    rw [this, hone]
  · intro mm t dev mems i m hm hmf hz0 hzi halt hv2p hpaged hzero
    have hone : virtOne mm flags gFlags m = ({ m with pb := List.replicate m.cb 0 }, none) := by
      unfold virtOne
      simp only []
      rw [if_neg (by simp [hmf, hz0, hzi])]
      rw [if_neg (by simp [halt])]
      simp only [hv2p]
      rcases hpaged with hnp | hcb | hhp | hdec
      · rw [if_neg (fun hc => hnp hc.1), if_pos hzero]
      · rw [if_neg (fun hc => hcb hc.2.1), if_pos hzero]
      · rw [if_neg (fun hc => by rw [hhp] at hc; exact Bool.false_ne_true hc.2.2),
          if_pos hzero]
      · by_cases hcond : (flags ||| gFlags) &&& VMM_FLAG_NOPAGING = 0 ∧ m.cb = 0x1000 ∧
            mm.hasPagedRead = true
        · rw [if_pos hcond]
          rw [if_neg (by simp [halt]), if_neg (by simp [halt])]
          simp only [hdec]
          rw [if_neg (show ¬((0 : Nat) ≠ 0) by simp), if_pos hzero]
        · rw [if_neg hcond, if_pos hzero]
    have := VmmReadScatterVirtual_notask mm t dev paMax mems flags gFlags i m hm
      (by rw [hone])
    rw [this, hone]

/-- Witness for C6 (amended) at concrete inputs: a failed physical read
below `paMax` is zero-filled and validated, and a virtual sentinel
descriptor is zero-filled. -/
theorem VmmScatter_zeropad_on_fail_witness :
    ((VmmReadScatterPhysical (stockedCache 30) (fun _ => none) 0x5000
        [⟨0x2000, 3, [5], false⟩] (VMM_FLAG_ZEROPAD_ON_FAIL ||| VMM_FLAG_NOCACHE) 0
      ).batchAfter.getD [])[0]? = some ⟨0x2000, 3, [0, 0, 0], true⟩ ∧
    (VmmReadScatterVirtual C6mm (stockedCache 30) (fun _ => none) 0x5000
        [⟨MEM_SCATTER_ADDR_INVALID, 2, [5, 5], false⟩] VMM_FLAG_ZEROPAD_ON_FAIL 0
      ).mems[0]? = some ⟨MEM_SCATTER_ADDR_INVALID, 2, [0, 0], false⟩ := by
  have h := VmmScatter_zeropad_on_fail (VMM_FLAG_ZEROPAD_ON_FAIL ||| VMM_FLAG_NOCACHE) 0 0x5000
  have h2 := VmmScatter_zeropad_on_fail VMM_FLAG_ZEROPAD_ON_FAIL 0 0x5000
  refine ⟨?_, ?_⟩
  · have := h.1 (stockedCache 30) (fun _ => none) [⟨0x2000, 3, [5], false⟩]
      [⟨0x2000, 3, [5], false⟩] 0 ⟨0x2000, 3, [5], false⟩ (by decide) rfl rfl rfl
    rw [this]
    decide
  · have := h2.2.1 C6mm (stockedCache 30) (fun _ => none)
      [⟨MEM_SCATTER_ADDR_INVALID, 2, [5, 5], false⟩] 0 ⟨MEM_SCATTER_ADDR_INVALID, 2, [5, 5], false⟩
      rfl rfl (Or.inr rfl) (by decide)
    rw [this]
    decide
